import Mathlib

/-!
# panda: the stepping core of the particle world (src/lib/world.cpp)

A shallow embedding of `world.cpp` and the properties of its registry,
cleanup pass, step pipeline and persistence.

Conventions of the embedding.

* `double` is an exact rational (`ℚ`): no rounding, no overflow, no NaN.  The
  rounding of `double` sums is modelled apart, for the clock of repeated steps
  (`binary64_round`, `clock_binary64`).
* Container sizes and indices are natural numbers; the collections are taken
  to hold fewer than `2^31` elements, the range in which the source's `int`
  and `unsigned int` loop counters do not wrap.
* `world.hpp`, `sphere`, `brick`, `vec3d`, `grid` and `interactor` are declared
  outside `world.cpp`.  The types of bricks, of the orientation `q`, of the
  interaction law and of the grid are type parameters (`B`, `Q`, `I`, `G`) and
  their operations are the fields of `collaborators`.
* A `std::vector` access outside the bounds is undefined behaviour; the only
  place where `world.cpp` can reach one is `spheres[j]` for a neighbour index
  `j` answered by the grid, and there `step` yields `none`.
* The conversion `(unsigned int)` of a `double` is defined only when the
  truncated value fits 32 bits; the constructor that computes cell counts
  yields `none` otherwise.
-/

namespace panda

/-! ## Data model -/

/-- Modelled from the spec: `vec3d` is declared outside `world.cpp`; the spec
describes it as a fixed-size numeric tuple with componentwise arithmetic, and
`world.cpp` indexes it over the three spatial dimensions. -/
structure vec3d where
  c0 : ℚ
  c1 : ℚ
  c2 : ℚ
deriving DecidableEq

/-- The value of `v.size ()`. -/
def vec3d.size (_v : vec3d) : ℕ := 3

/-- The value of `v[i]` and of `v.get (i)` for `i < v.size ()`. -/
def vec3d.get (v : vec3d) (i : ℕ) : ℚ :=
  match i with
  | 0 => v.c0
  | 1 => v.c1
  | _ => v.c2

/-- Componentwise `a + b`. -/
def vec3d.add (a b : vec3d) : vec3d :=
  { c0 := a.c0 + b.c0, c1 := a.c1 + b.c1, c2 := a.c2 + b.c2 }

/-- Componentwise `a * k` for a scalar `k`. -/
def vec3d.scale (a : vec3d) (k : ℚ) : vec3d :=
  { c0 := a.c0 * k, c1 := a.c1 * k, c2 := a.c2 * k }

instance : Add vec3d := ⟨vec3d.add⟩

instance : HMul vec3d ℚ vec3d := ⟨vec3d.scale⟩

/-- The zero vector. -/
def vec3d.zero : vec3d := { c0 := 0, c1 := 0, c2 := 0 }

/-- Modelled from the spec: the lifecycle flag `sphere::state` is declared
outside `world.cpp`, which names its value `kill`; the spec gives the values
alive and kill. -/
inductive sphere.state where
  | alive
  | kill
deriving DecidableEq

/-- The members of `sphere` that `world.cpp` reads or writes: position `x`,
orientation `q`, velocity `v`, angular velocity `w`, reference position `x0`
and the lifecycle flag. -/
structure sphere (Q : Type) where
  x : vec3d
  q : Q
  v : vec3d
  w : vec3d
  x0 : vec3d
  flag : sphere.state
deriving DecidableEq

/-- Modelled from the spec: the type of the cell-count vector `c` is declared
outside `world.cpp`, which assigns it `{ 1, 1, 1 }` and writes `c[i]` as
`unsigned int` for the three axes. -/
structure cell_counts where
  c0 : ℕ
  c1 : ℕ
  c2 : ℕ
deriving DecidableEq

/-- The members of `world`. -/
structure world (Q B I G : Type) where
  spheres : List (sphere Q)
  bricks : List B
  bi : I
  c : cell_counts
  min_box : vec3d
  max_box : vec3d
  t : ℚ
  dt : ℚ
  g : G
  grid_step_counter : ℕ
deriving DecidableEq

/-- The operations that `world.cpp` calls on types declared elsewhere.
`q_plus` is the `+` of `s.q + s.w*dt`; `interact` and `interact_brick` are the
two overloads of `interactor::interact`, which take their bodies by reference
and may write them (and the law object itself); `grid`, `add`, `remove`,
`update`, `get_neighbors` and `complete_refresh` are the constructor and the
members of `grid`. -/
structure collaborators (Q B I G : Type) where
  q_plus : Q → vec3d → Q
  interact : I → sphere Q → sphere Q → I × sphere Q × sphere Q
  interact_brick : I → B → sphere Q → I × B × sphere Q
  grid : cell_counts → vec3d → vec3d → G
  add : G → sphere Q → ℕ → G
  remove : G → sphere Q → ℕ → G
  update : G → sphere Q → ℕ → G
  get_neighbors : G → ℕ → List ℕ
  complete_refresh : G → List (sphere Q) → G

/-- The exception `std::out_of_range` with its message. -/
inductive exn where
  | out_of_range (what : String)
deriving DecidableEq

variable {Q B I G : Type}

/-! ## Registry (world.cpp lines 78-112) -/

/-- `world::add_sphere`. -/
def add_sphere (E : collaborators Q B I G) (w : world Q B I G) (s : sphere Q) :
    world Q B I G :=
  let s1 : sphere Q := { s with x0 := s.x }
  let g1 := E.add w.g s1 w.spheres.length
  { w with g := g1, spheres := w.spheres ++ [s1] }

/-- `world::num_spheres`. -/
def num_spheres (w : world Q B I G) : ℕ := w.spheres.length

/-- `world::num_bricks`. -/
def num_bricks (w : world Q B I G) : ℕ := w.bricks.length

/-- `world::get_sphere`: the returned copy or the thrown exception, and the
world after the call. -/
def get_sphere (w : world Q B I G) (i : ℕ) : Except exn (sphere Q) × world Q B I G :=
  if h : i < w.spheres.length then
    (Except.ok w.spheres[i], w)
  else
    (Except.error (exn.out_of_range "requested sphere outside of range"), w)

/-- `world::get_brick`: the returned copy or the thrown exception, and the
world after the call. -/
def get_brick (w : world Q B I G) (i : ℕ) : Except exn B × world Q B I G :=
  if h : i < w.bricks.length then
    (Except.ok w.bricks[i], w)
  else
    (Except.error (exn.out_of_range "requested brick outside of range"), w)

/-! ## Lifecycle maintenance (world.cpp lines 56-76) -/

/-- The body of the inner loop of `world::update_flags` at axis `i`. -/
def flag_axis (min_box max_box : vec3d) (s : sphere Q) (i : ℕ) : sphere Q :=
  if s.x.get i < min_box.get i ∨ s.x.get i > max_box.get i then
    { s with flag := sphere.state.kill }
  else
    s

/-- The inner loop of `world::update_flags`: `i` runs over `0 .. min_box.size ()`. -/
def flag_sphere (min_box max_box : vec3d) (s : sphere Q) : sphere Q :=
  (List.range min_box.size).foldl (flag_axis min_box max_box) s

/-- `world::update_flags`. -/
def update_flags (w : world Q B I G) : world Q B I G :=
  { w with spheres := w.spheres.map (flag_sphere w.min_box w.max_box) }

/-- The loop of `world::clean` with `k` indices left to visit: the next index
visited is `k - 1`, and the state is the grid and the collection.  The index
visited is always inside the collection (`clean_from_eq`). -/
def clean_from (E : collaborators Q B I G) :
    ℕ → G × List (sphere Q) → G × List (sphere Q)
  | 0, st => st
  | k + 1, st =>
    match st.2[k]? with
    | some s =>
      if s.flag = sphere.state.kill then
        clean_from E k (E.remove st.1 s k, st.2.eraseIdx k)
      else
        clean_from E k st
    | none => clean_from E k st

/-- `world::clean`. -/
def clean (E : collaborators Q B I G) (w : world Q B I G) : world Q B I G :=
  if w.spheres.isEmpty then
    w
  else
    let r := clean_from E w.spheres.length (w.g, w.spheres)
    { w with g := r.1, spheres := r.2 }

/-! ## Simulation step (world.cpp lines 114-151) -/

/-- The loop `for i: g.update (spheres[i], i)`, from index `i` on. -/
def update_from (E : collaborators Q B I G) : ℕ → List (sphere Q) → G → G
  | _, [], g => g
  | i, s :: rest, g => update_from E (i + 1) rest (E.update g s i)

/-- The block "update grid positions" of `world::step`. -/
def update_grid_positions (E : collaborators Q B I G) (w : world Q B I G) :
    world Q B I G :=
  { w with g := update_from E 0 w.spheres w.g }

/-- One call `bi.interact (spheres[i], spheres[j])` on the law object and the
collection; `none` when an index is outside the collection. -/
def interact_pair (E : collaborators Q B I G) (st : I × List (sphere Q)) (i j : ℕ) :
    Option (I × List (sphere Q)) :=
  match st.2[i]?, st.2[j]? with
  | some a, some b =>
    let r := E.interact st.1 a b
    some (r.1, (st.2.set i r.2.1).set j r.2.2)
  | _, _ => none

/-- The inner loop `for j : g.get_neighbors (i)` with its guard `i < j`. -/
def neighbor_loop (E : collaborators Q B I G) (i : ℕ) :
    List ℕ → I × List (sphere Q) → Option (I × List (sphere Q))
  | [], st => some st
  | j :: js, st =>
    if i < j then
      (interact_pair E st i j).bind (neighbor_loop E i js)
    else
      neighbor_loop E i js st

/-- The outer loop of the block "Sphere interactions" over the indices still
to visit. -/
def sphere_loop (E : collaborators Q B I G) (g : G) :
    List ℕ → I × List (sphere Q) → Option (I × List (sphere Q))
  | [], st => some st
  | i :: rest, st =>
    (neighbor_loop E i (E.get_neighbors g i) st).bind (sphere_loop E g rest)

/-- The block "Sphere interactions" of `world::step`. -/
def sphere_interactions (E : collaborators Q B I G) (w : world Q B I G) :
    Option (world Q B I G) :=
  (sphere_loop E w.g (List.range w.spheres.length) (w.bi, w.spheres)).map
    (fun r => { w with bi := r.1, spheres := r.2 })

/-- The inner loop `for (sphere & s : spheres) bi.interact (b, s)` for one brick. -/
def brick_row (E : collaborators Q B I G) : I → B → List (sphere Q) → I × B × List (sphere Q)
  | bi, b, [] => (bi, b, [])
  | bi, b, s :: rest =>
    let r := E.interact_brick bi b s
    let r2 := brick_row E r.1 r.2.1 rest
    (r2.1, r2.2.1, r.2.2 :: r2.2.2)

/-- The outer loop `for (brick & b : bricks)`. -/
def brick_loop (E : collaborators Q B I G) :
    I → List B → List (sphere Q) → I × List B × List (sphere Q)
  | bi, [], l => (bi, [], l)
  | bi, b :: bs, l =>
    let r := brick_row E bi b l
    let r2 := brick_loop E r.1 bs r.2.2
    (r2.1, r.2.1 :: r2.2.1, r2.2.2)

/-- The block "Interact with fixed objects" of `world::step`. -/
def interact_with_fixed_objects (E : collaborators Q B I G) (w : world Q B I G) :
    world Q B I G :=
  let r := brick_loop E w.bi w.bricks w.spheres
  { w with bi := r.1, bricks := r.2.1, spheres := r.2.2 }

/-- The body of the loop "Position updating" for one sphere. -/
def integrate (E : collaborators Q B I G) (dt : ℚ) (s : sphere Q) : sphere Q :=
  { s with x := s.x + s.v * dt, q := E.q_plus s.q (s.w * dt) }

/-- The block "Position updating" of `world::step`. -/
def position_updating (E : collaborators Q B I G) (w : world Q B I G) : world Q B I G :=
  { w with spheres := w.spheres.map (integrate E w.dt) }

/-- The block "Update state variable" of `world::step`. -/
def update_state_variable (w : world Q B I G) : world Q B I G :=
  { w with t := w.t + w.dt }

/-- The first two calls of `world::step`: `update_flags (); clean ();`. -/
def cleanup (E : collaborators Q B I G) (w : world Q B I G) : world Q B I G :=
  clean E (update_flags w)

/-- `world::step ()`; `none` when a neighbour index answered by the grid is
outside the collection. -/
def step (E : collaborators Q B I G) (w : world Q B I G) : Option (world Q B I G) :=
  (sphere_interactions E (update_grid_positions E (cleanup E w))).map
    (fun w4 => update_state_variable (position_updating E (interact_with_fixed_objects E w4)))

/-- `world::step (unsigned int n)`. -/
def step_n (E : collaborators Q B I G) : ℕ → world Q B I G → Option (world Q B I G)
  | 0, w => some w
  | n + 1, w => (step E w).bind (step_n E n)

/-! ## Persistence (world.cpp lines 24-54) -/

/-- Modelled from the spec: the serializer (the boost archives and
`world::serialize`, none of them in `world.cpp`) is a lossless encoding of the
whole world object, so the content of an archive file is the saved world value
and a store of files maps a file name to the world saved there, if any. -/
abbrev files (Q B I G : Type) : Type := String → Option (world Q B I G)

/-- `world::save`. -/
def save (w : world Q B I G) (filename : String) (fs : files Q B I G) : files Q B I G :=
  fun p => if p = filename then some w else fs p

/-- The block "copy what w had" of `world::load`: the members taken over from
the temporary world `w`; the grid and `grid_step_counter` of the live world
stay. -/
def copy_what_w_had (live w : world Q B I G) : world Q B I G :=
  { live with spheres := w.spheres, bricks := w.bricks, bi := w.bi, c := w.c,
              min_box := w.min_box, max_box := w.max_box, t := w.t, dt := w.dt }

/-- `world::load` on the live world `live`; `none` when no archive can be read
from the file. -/
def load (E : collaborators Q B I G) (live : world Q B I G) (filename : String)
    (fs : files Q B I G) : Option (world Q B I G) :=
  (fs filename).map fun w =>
    let w1 := copy_what_w_had live w
    let w2 := clean E (update_flags w1)
    let g1 := E.grid w2.c w2.min_box w2.max_box
    { w2 with g := E.complete_refresh g1 w2.spheres }

/-! ## Derived notions used by the statements -/

/-- A sphere lies in the closed box on every axis. -/
def in_box (min_box max_box : vec3d) (s : sphere Q) : Prop :=
  ∀ k, k < min_box.size → min_box.get k ≤ s.x.get k ∧ s.x.get k ≤ max_box.get k

instance (min_box max_box : vec3d) (s : sphere Q) : Decidable (in_box min_box max_box s) := by
  unfold in_box; infer_instance

/-- A sphere that the cleanup pass of a step keeps: flagged alive and inside
the box. -/
def survives (min_box max_box : vec3d) (s : sphere Q) : Bool :=
  decide (s.flag = sphere.state.alive ∧ in_box min_box max_box s)

/-- The index pairs on which the block "Sphere interactions" calls the law, in
the order of the calls: for `i` over the indices, for `j` over the neighbours
of `i`, when `i < j`. -/
def interaction_pairs (E : collaborators Q B I G) (g : G) (n : ℕ) : List (ℕ × ℕ) :=
  (List.range n).flatMap fun i =>
    ((E.get_neighbors g i).filter fun j => decide (i < j)).map fun j => (i, j)

/-- Modelled from the spec: the grid is outside `world.cpp`; its neighbour query
answers a set of indices, so in the state `g` the sequence returned by
`get_neighbors` lists no index twice. -/
def answers_sets (E : collaborators Q B I G) (g : G) : Prop :=
  ∀ i, (E.get_neighbors g i).Nodup

/-- The number of entries of a list of index pairs that are the pair `(i, j)`. -/
def calls_on (ps : List (ℕ × ℕ)) (i j : ℕ) : ℕ :=
  ps.countP fun p => decide (p.1 = i ∧ p.2 = j)

/-- The calls of the law on a list of index pairs, one call per entry, in the
order of the list. -/
def interact_along (E : collaborators Q B I G) (ps : List (ℕ × ℕ))
    (st : I × List (sphere Q)) : Option (I × List (sphere Q)) :=
  ps.foldlM (fun st p => interact_pair E st p.1 p.2) st

/-- A quantity of a sphere that the sphere-sphere law does not write. -/
def kept_by_interact (E : collaborators Q B I G) {α : Type} (f : sphere Q → α) : Prop :=
  ∀ bi a b, f (E.interact bi a b).2.1 = f a ∧ f (E.interact bi a b).2.2 = f b

/-- A quantity of a sphere that the brick-sphere law does not write. -/
def kept_by_interact_brick (E : collaborators Q B I G) {α : Type} (f : sphere Q → α) : Prop :=
  ∀ bi b s, f (E.interact_brick bi b s).2.2 = f s

/-- The spec's reading of `step (n)`: the single step applied `n` times in
sequence, each application on the outcome of the previous one. -/
def n_sequential_steps (E : collaborators Q B I G) (n : ℕ) (w : world Q B I G) :
    Option (world Q B I G) :=
  (fun o : Option (world Q B I G) => o.bind (step E))^[n] (some w)

/-! ## Construction (world.cpp lines 3-22) -/

/-- The conversion `(unsigned int) x` of a `double`: the value is truncated
toward zero, and the conversion is defined only when the truncated value fits
`unsigned int` (32 bits), that is for `-1 < x < 2^32`; `none` otherwise. -/
def to_unsigned (x : ℚ) : Option ℕ :=
  if -1 < x ∧ x < 2 ^ 32 then some (Int.toNat ⌊x⌋) else none

/-- The right-hand side of the assignment to `c[i]` in the constructor:
`(unsigned int) ((max_box[i]-min_box[i])/cell_size.get (i) + 0.5)`; `none` when
the divisor is zero (the quotient is then no finite number) or the conversion
is undefined. -/
def rounded_cells (min_box max_box cell_size : vec3d) (i : ℕ) : Option ℕ :=
  if cell_size.get i = 0 then none
  else to_unsigned ((max_box.get i - min_box.get i) / cell_size.get i + 1 / 2)

/-- `world::world ()`.  The default-constructed law object `bi` and the initial
values of `min_box` and `max_box` come from declarations outside `world.cpp`
and are parameters. -/
def world_ctor (E : collaborators Q B I G) (bi : I) (min_box max_box : vec3d) :
    world Q B I G :=
  let c : cell_counts := { c0 := 1, c1 := 1, c2 := 1 }
  { spheres := [], bricks := [], bi := bi, c := c, min_box := min_box, max_box := max_box,
    t := 0, dt := 1 / 1000, g := E.grid c min_box max_box, grid_step_counter := 0 }

/-- `world::world (const vec3d cell_size, const interactor bi, const double dt)`;
the loop over `i < cell_size.size ()` assigns the three cell counts.  The
initial values of `min_box` and `max_box` are parameters as in `world_ctor`. -/
def world_ctor_cell_size (E : collaborators Q B I G) (min_box max_box : vec3d)
    (cell_size : vec3d) (bi : I) (dt : ℚ) : Option (world Q B I G) :=
  (rounded_cells min_box max_box cell_size 0).bind fun n0 =>
  (rounded_cells min_box max_box cell_size 1).bind fun n1 =>
  (rounded_cells min_box max_box cell_size 2).bind fun n2 =>
    let c : cell_counts := { c0 := n0, c1 := n1, c2 := n2 }
    some { spheres := [], bricks := [], bi := bi, c := c, min_box := min_box,
           max_box := max_box, t := 0, dt := dt, g := E.grid c min_box max_box,
           grid_step_counter := 0 }

/-- The value of `c[i]` for `i < 3`. -/
def cell_counts.get (c : cell_counts) (i : ℕ) : ℕ :=
  match i with
  | 0 => c.c0
  | 1 => c.c1
  | _ => c.c2

/-! ## The call record of the cleanup pass -/

/-- The two effects of the body of the loop of `world::clean`, in the order of
the statements: the call `g.remove (spheres[i], i)` with its arguments, and the
erasure `spheres.erase (spheres.begin () + i)`. -/
inductive clean_event (Q : Type) where
  | grid_remove (s : sphere Q) (i : ℕ)
  | erase (i : ℕ)
deriving DecidableEq

/-- The loop of `world::clean` as in `clean_from`, carrying along the list of
the effects performed so far. -/
def clean_from_log (E : collaborators Q B I G) :
    ℕ → (G × List (sphere Q)) × List (clean_event Q) →
      (G × List (sphere Q)) × List (clean_event Q)
  | 0, st => st
  | k + 1, st =>
    match st.1.2[k]? with
    | some s =>
      if s.flag = sphere.state.kill then
        clean_from_log E k
          ((E.remove st.1.1 s k, st.1.2.eraseIdx k),
            st.2 ++ [clean_event.grid_remove s k, clean_event.erase k])
      else
        clean_from_log E k st
    | none => clean_from_log E k st

/-- The effects of `world::clean` on a world, in order. -/
def clean_log (E : collaborators Q B I G) (w : world Q B I G) : List (clean_event Q) :=
  if w.spheres.isEmpty then []
  else (clean_from_log E w.spheres.length ((w.g, w.spheres), [])).2

/-- The spheres of `l` flagged kill at an index below `k`, each with its index
in `l`, from the highest index down. -/
def kill_list : ℕ → List (sphere Q) → List (ℕ × sphere Q)
  | 0, _ => []
  | k + 1, l =>
    match l[k]? with
    | some s =>
      if s.flag = sphere.state.kill then (k, s) :: kill_list k l else kill_list k l
    | none => kill_list k l

/-! ## The calls of the brick-sphere law -/

/-- One call `bi.interact (b, s)` on brick `p.1` and sphere `p.2` of the
collections. -/
def interact_brick_at (E : collaborators Q B I G) (st : I × List B × List (sphere Q))
    (p : ℕ × ℕ) : I × List B × List (sphere Q) :=
  match st.2.1[p.1]?, st.2.2[p.2]? with
  | some b, some s =>
    let r := E.interact_brick st.1 b s
    (r.1, st.2.1.set p.1 r.2.1, st.2.2.set p.2 r.2.2)
  | _, _ => st

/-- The index pairs (brick, sphere) of the block "Interact with fixed objects",
in the order of the calls: for each brick, every sphere. -/
def brick_pairs (nb ns : ℕ) : List (ℕ × ℕ) :=
  (List.range nb).flatMap fun b => (List.range ns).map fun s => (b, s)

/-! ## The grid of the contract: a record of (index, position) memberships -/

/-- Modelled from the spec: the grid is outside `world.cpp`; by its contract it
records which index is registered at which position.  `add` inserts the index
with the position of the sphere; `remove` deletes the index and, the index
tracking of the grid absorbing the shift of the erasure that follows in the
collection (spec 4.2), moves every index above it down by one; `update`
re-records the position of the index (and, with `upsert`, registers an index
that is not recorded); `complete_refresh` discards the record and inserts
every sphere of the collection; the neighbour query answers the other
recorded indices (one cell).  The law and the orientation sum are those of
`E`. -/
def record_grid (E : collaborators Q B I G) (upsert : Bool) :
    collaborators Q B I (List (ℕ × vec3d)) where
  q_plus := E.q_plus
  interact := E.interact
  interact_brick := E.interact_brick
  grid := fun _ _ _ => []
  add := fun g s i => g ++ [(i, s.x)]
  remove := fun g _ i =>
    (g.filter fun e => decide (e.1 ≠ i)).map fun e => if i < e.1 then (e.1 - 1, e.2) else e
  update := fun g s i =>
    if g.any (fun e => decide (e.1 = i)) then
      g.map fun e => if e.1 = i then (i, s.x) else e
    else if upsert then g ++ [(i, s.x)] else g
  get_neighbors := fun g i => ((g.map fun e => e.1).filter fun j => decide (j ≠ i)).dedup
  complete_refresh := fun _ l => l.enum.map fun e => (e.1, e.2.x)

/-- The position recorded for index `i`, if any. -/
def recorded (g : List (ℕ × vec3d)) (i : ℕ) : Option vec3d :=
  (g.find? fun e => decide (e.1 = i)).map fun e => e.2

/-- The number of binary digits of `n`, counted with at most `fuel` halvings. -/
def binary_digits : ℕ → ℕ → ℕ
  | 0, _ => 0
  | fuel + 1, n => if n = 0 then 0 else binary_digits fuel (n / 2) + 1

/-- The exponent `k` with `2^k ≤ a < 2^(k+1)` of a positive rational `a`. -/
def floor_log2 (a : ℚ) : ℤ :=
  let k : ℤ := (binary_digits a.num.natAbs a.num.natAbs : ℤ) - (binary_digits a.den a.den : ℤ)
  if (2 : ℚ) ^ k ≤ a then k else k - 1

/-- Rounding to the nearest integer, a tie going to the even one. -/
def round_half_even (y : ℚ) : ℤ :=
  if y - ⌊y⌋ < 1 / 2 then ⌊y⌋
  else if 1 / 2 < y - ⌊y⌋ then ⌊y⌋ + 1
  else if ⌊y⌋ % 2 = 0 then ⌊y⌋ else ⌊y⌋ + 1

/-- The `double` nearest to the real `x`: rounding to 53 significant bits, ties
to even (the default rounding of binary64 arithmetic), for `x` in the normal
range of `double` (no overflow, no subnormal numbers). -/
def binary64_round (x : ℚ) : ℚ :=
  if x = 0 then 0
  else
    let ulp : ℚ := 2 ^ (floor_log2 |x| - 52)
    (if x < 0 then -1 else 1) * (round_half_even (|x| / ulp) : ℚ) * ulp

/-- The clock after `n` executions of `t += dt` (world.cpp line 144) on
`double` values, each sum rounded to the nearest `double`. -/
def clock_binary64 (n : ℕ) (t dt : ℚ) : ℚ :=
  (fun u => binary64_round (u + dt))^[n] t

/-! ## Concrete collaborators and worlds -/

/-- A concrete set of collaborators: orientations are triples added
componentwise, the law counts its calls and writes no body, and the grid is a
single cell that records the registered indices and answers every other
registered index as a neighbour. -/
def one_cell : collaborators vec3d ℕ ℕ (List ℕ) where
  q_plus := fun q v => q + v
  interact := fun n a b => (n + 1, a, b)
  interact_brick := fun n b s => (n + 1, b, s)
  grid := fun _ _ _ => []
  add := fun g _ i => g ++ [i]
  remove := fun g _ i => g.erase i
  update := fun g _ i => if i ∈ g then g else g ++ [i]
  get_neighbors := fun g i => g.filter fun j => decide (j ≠ i)
  complete_refresh := fun _ l => List.range l.length

/-- The collaborators `one_cell` with a grid that answers only the registered
indices below the queried one: each pair is reported in one direction only. -/
def lower_only : collaborators vec3d ℕ ℕ (List ℕ) :=
  { one_cell with get_neighbors := fun g i => g.filter fun j => decide (j < i) }

/-- The lower corner of the unit domain. -/
def unit_lo : vec3d := { c0 := 0, c1 := 0, c2 := 0 }

/-- The upper corner of the unit domain. -/
def unit_hi : vec3d := { c0 := 1, c1 := 1, c2 := 1 }

/-- An alive sphere at `x` with velocity `v`, no rotation, and a reference
position not yet stamped. -/
def ball (x v : vec3d) : sphere vec3d :=
  { x := x, q := vec3d.zero, v := v, w := vec3d.zero, x0 := vec3d.zero,
    flag := sphere.state.alive }

/-- A world on the unit domain with no sphere, no brick and `dt = 0.001`. -/
def empty_world : world vec3d ℕ ℕ (List ℕ) :=
  { spheres := [], bricks := [], bi := 0, c := { c0 := 1, c1 := 1, c2 := 1 },
    min_box := unit_lo, max_box := unit_hi, t := 0, dt := 1 / 1000, g := [],
    grid_step_counter := 0 }

/-- Two spheres at rest, 0.1 apart, inside the unit domain. -/
def rest_pair : world vec3d ℕ ℕ (List ℕ) :=
  add_sphere one_cell
    (add_sphere one_cell empty_world
      (ball { c0 := 2 / 5, c1 := 1 / 2, c2 := 1 / 2 } vec3d.zero))
    (ball { c0 := 1 / 2, c1 := 1 / 2, c2 := 1 / 2 } vec3d.zero)

/-- One sphere in the middle of the unit domain with velocity 1000 along the
first axis: one time-step carries it to `x = 3/2`. -/
def fast_world : world vec3d ℕ ℕ (List ℕ) :=
  add_sphere one_cell empty_world
    (ball { c0 := 1 / 2, c1 := 1 / 2, c2 := 1 / 2 } { c0 := 1000, c1 := 0, c2 := 0 })

/-- One sphere in the middle of the unit domain drifting with velocity 1 along
the first axis. -/
def drift_world : world vec3d ℕ ℕ (List ℕ) :=
  add_sphere one_cell empty_world
    (ball { c0 := 1 / 2, c1 := 1 / 2, c2 := 1 / 2 } { c0 := 1, c1 := 0, c2 := 0 })

/-- The world `rest_pair` with a third sphere placed outside the unit domain. -/
def stray_world : world vec3d ℕ ℕ (List ℕ) :=
  add_sphere one_cell rest_pair (ball { c0 := 2, c1 := 1 / 2, c2 := 1 / 2 } vec3d.zero)

/-- The empty world of `empty_world` with the record grid. -/
def empty_record_world : world vec3d ℕ ℕ (List (ℕ × vec3d)) :=
  { spheres := [], bricks := [], bi := 0, c := { c0 := 1, c1 := 1, c2 := 1 },
    min_box := unit_lo, max_box := unit_hi, t := 0, dt := 1 / 1000, g := [],
    grid_step_counter := 0 }

/-- One drifting sphere added by `add_sphere` to the empty world with the
record grid. -/
def drift_record_world : world vec3d ℕ ℕ (List (ℕ × vec3d)) :=
  add_sphere (record_grid one_cell true) empty_record_world
    (ball { c0 := 1 / 2, c1 := 1 / 2, c2 := 1 / 2 } { c0 := 1, c1 := 0, c2 := 0 })

/-- The world `drift_record_world` after one step: the sphere has moved by
`v * dt`, the clock by `dt`, and the grid record is as it was. -/
def drift_record_stepped : world vec3d ℕ ℕ (List (ℕ × vec3d)) :=
  { drift_record_world with
    spheres := [{ ball { c0 := 501 / 1000, c1 := 1 / 2, c2 := 1 / 2 }
                    { c0 := 1, c1 := 0, c2 := 0 } with
                  x0 := { c0 := 1 / 2, c1 := 1 / 2, c2 := 1 / 2 } }],
    t := 1 / 1000 }

/-! # Theorems -/


/-! ## Registry -/

theorem get_sphere_fst_ok (w : world Q B I G) (i : ℕ) (h : i < w.spheres.length) :
    (get_sphere w i).1 = Except.ok w.spheres[i] := by
  simp [get_sphere, h]

theorem get_sphere_fst_error (w : world Q B I G) (i : ℕ) (h : w.spheres.length ≤ i) :
    (get_sphere w i).1 = Except.error (exn.out_of_range "requested sphere outside of range") := by
  simp [get_sphere, Nat.not_lt.mpr h]


/-! ## Cleanup pass -/

theorem in_box_iff (lo hi : vec3d) (s : sphere Q) :
    in_box lo hi s ↔
      (lo.c0 ≤ s.x.c0 ∧ s.x.c0 ≤ hi.c0) ∧ (lo.c1 ≤ s.x.c1 ∧ s.x.c1 ≤ hi.c1) ∧
        (lo.c2 ≤ s.x.c2 ∧ s.x.c2 ≤ hi.c2) := by
  unfold in_box vec3d.size
  constructor
  · intro h
    exact ⟨h 0 (by omega), h 1 (by omega), h 2 (by omega)⟩
  · rintro ⟨h0, h1, h2⟩ k hk
    interval_cases k
    · exact h0
    · exact h1
    · exact h2

theorem flag_sphere_eq (lo hi : vec3d) (s : sphere Q) :
    flag_sphere lo hi s =
      if in_box lo hi s then s else { s with flag := sphere.state.kill } := by
  have hr : List.range 3 = [0, 1, 2] := by decide
  by_cases hb : in_box lo hi s
  · rw [if_pos hb]
    obtain ⟨⟨a0, b0⟩, ⟨a1, b1⟩, ⟨a2, b2⟩⟩ := (in_box_iff lo hi s).mp hb
    simp [flag_sphere, vec3d.size, hr, flag_axis, vec3d.get, not_lt.mpr a0, not_lt.mpr a1,
      not_lt.mpr a2, not_lt.mpr b0, not_lt.mpr b1, not_lt.mpr b2]
  · rw [if_neg hb]
    have hn : ¬ ((lo.c0 ≤ s.x.c0 ∧ s.x.c0 ≤ hi.c0) ∧ (lo.c1 ≤ s.x.c1 ∧ s.x.c1 ≤ hi.c1) ∧
        (lo.c2 ≤ s.x.c2 ∧ s.x.c2 ≤ hi.c2)) := fun h => hb ((in_box_iff lo hi s).mpr h)
    simp only [flag_sphere, vec3d.size, hr, List.foldl_cons, List.foldl_nil, flag_axis,
      vec3d.get]
    by_cases h0 : s.x.c0 < lo.c0 ∨ s.x.c0 > hi.c0
    · by_cases h1 : s.x.c1 < lo.c1 ∨ s.x.c1 > hi.c1 <;>
        by_cases h2 : s.x.c2 < lo.c2 ∨ s.x.c2 > hi.c2 <;> simp [h0, h1, h2]
    · by_cases h1 : s.x.c1 < lo.c1 ∨ s.x.c1 > hi.c1
      · by_cases h2 : s.x.c2 < lo.c2 ∨ s.x.c2 > hi.c2 <;> simp [h0, h1, h2]
      · by_cases h2 : s.x.c2 < lo.c2 ∨ s.x.c2 > hi.c2
        · simp [h0, h1, h2]
        · exfalso
          simp only [not_or, not_lt, gt_iff_lt] at h0 h1 h2
          exact hn ⟨h0, h1, h2⟩

theorem flag_sphere_x (lo hi : vec3d) (s : sphere Q) : (flag_sphere lo hi s).x = s.x := by
  rw [flag_sphere_eq]; split <;> rfl

theorem flag_sphere_x0 (lo hi : vec3d) (s : sphere Q) : (flag_sphere lo hi s).x0 = s.x0 := by
  rw [flag_sphere_eq]; split <;> rfl

theorem flag_sphere_alive_iff (lo hi : vec3d) (s : sphere Q) :
    (flag_sphere lo hi s).flag ≠ sphere.state.kill ↔ survives lo hi s = true := by
  rw [flag_sphere_eq]
  unfold survives
  by_cases hb : in_box lo hi s
  · cases hf : s.flag <;> simp [hb, hf]
  · simp [hb]

theorem flag_sphere_of_survives (lo hi : vec3d) (s : sphere Q)
    (h : survives lo hi s = true) : flag_sphere lo hi s = s := by
  rw [flag_sphere_eq]
  unfold survives at h
  simp only [decide_eq_true_eq] at h
  simp [h.2]

theorem clean_from_eq (E : collaborators Q B I G) (k : ℕ) :
    ∀ (g : G) (l : List (sphere Q)), k ≤ l.length →
      (clean_from E k (g, l)).2 =
        (l.take k).filter (fun s => decide (s.flag ≠ sphere.state.kill)) ++ l.drop k := by
  induction k with
  | zero => intro g l _; simp [clean_from]
  | succ k ih =>
    intro g l hk
    have hlt : k < l.length := hk
    have hget : l[k]? = some l[k] := List.getElem?_eq_getElem hlt
    have htake : l.take (k + 1) = l.take k ++ [l[k]] := by
      rw [List.take_succ, hget]; rfl
    have hdrop : l.drop k = l[k] :: l.drop (k + 1) := List.drop_eq_getElem_cons hlt
    simp only [clean_from, hget]
    by_cases hf : l[k].flag = sphere.state.kill
    · simp only [hf, if_true]
      have hlen : k ≤ (l.eraseIdx k).length := by
        rw [List.length_eraseIdx]; simp [hlt]; omega
      have hk1 : (List.take k l).length = k := by simp; omega
      have h1 : (List.take k l ++ List.drop (k + 1) l).take k = l.take k := by
        rw [List.take_append_of_le_length (by omega)]
        simp [List.take_take]
      have h2 : (List.take k l ++ List.drop (k + 1) l).drop k = l.drop (k + 1) := by
        rw [List.drop_append_of_le_length (by omega), List.drop_of_length_le (by omega)]
        simp
      rw [ih _ _ hlen, List.eraseIdx_eq_take_drop_succ, h1, h2, htake, List.filter_append]
      have : List.filter (fun s : sphere Q => decide (s.flag ≠ sphere.state.kill)) [l[k]] = [] := by
        simp [List.filter, hf]
      rw [this, List.append_nil]
    · simp only [hf, if_false]
      rw [ih _ _ (Nat.le_of_lt hlt), htake, List.filter_append, hdrop]
      have : List.filter (fun s : sphere Q => decide (s.flag ≠ sphere.state.kill)) [l[k]]
          = [l[k]] := by
        simp [List.filter, hf]
      rw [this, List.append_assoc]
      rfl

theorem clean_spheres (E : collaborators Q B I G) (w : world Q B I G) :
    (clean E w).spheres = w.spheres.filter (fun s => decide (s.flag ≠ sphere.state.kill)) := by
  unfold clean
  by_cases he : w.spheres = []
  · simp [he]
  · have : w.spheres.isEmpty = false := by simpa using he
    simp only [this]
    simp [clean_from_eq E w.spheres.length w.g w.spheres le_rfl]

theorem cleanup_spheres (E : collaborators Q B I G) (w : world Q B I G) :
    (cleanup E w).spheres = w.spheres.filter (survives w.min_box w.max_box) := by
  unfold cleanup
  rw [clean_spheres]
  simp only [update_flags, List.filter_map]
  have hf : ((fun s : sphere Q => decide (s.flag ≠ sphere.state.kill)) ∘
      flag_sphere w.min_box w.max_box) = survives w.min_box w.max_box := by
    funext s
    have := flag_sphere_alive_iff w.min_box w.max_box s
    simp only [Function.comp]
    by_cases hs : survives w.min_box w.max_box s = true
    · rw [hs]; simpa using this.mpr hs
    · have h2 : ¬ (flag_sphere w.min_box w.max_box s).flag ≠ sphere.state.kill :=
        fun h => hs (this.mp h)
      simp only [Bool.not_eq_true] at hs
      rw [hs]; simpa using h2
  rw [hf]
  have hid : ∀ s ∈ List.filter (survives w.min_box w.max_box) w.spheres,
      flag_sphere w.min_box w.max_box s = id s := fun s hs =>
    flag_sphere_of_survives _ _ s (List.mem_filter.mp hs).2
  rw [List.map_congr_left hid, List.map_id]


/-! ## The interaction phases -/

theorem interact_pair_eq_some (E : collaborators Q B I G) (st st1 : I × List (sphere Q))
    (i j : ℕ) (h : interact_pair E st i j = some st1) :
    ∃ (hi : i < st.2.length) (hj : j < st.2.length),
      st1 = ((E.interact st.1 st.2[i] st.2[j]).1,
        (st.2.set i (E.interact st.1 st.2[i] st.2[j]).2.1).set j
          (E.interact st.1 st.2[i] st.2[j]).2.2) := by
  unfold interact_pair at h
  by_cases hi : i < st.2.length
  · by_cases hj : j < st.2.length
    · rw [List.getElem?_eq_getElem hi, List.getElem?_eq_getElem hj] at h
      simp only [Option.some.injEq] at h
      exact ⟨hi, hj, h.symm⟩
    · rw [List.getElem?_eq_none (Nat.le_of_not_lt hj)] at h
      split at h <;> simp_all
  · rw [List.getElem?_eq_none (Nat.le_of_not_lt hi)] at h
    split at h <;> simp_all

theorem interact_pair_isSome (E : collaborators Q B I G) (st : I × List (sphere Q))
    (i j : ℕ) (hi : i < st.2.length) (hj : j < st.2.length) :
    ∃ st1, interact_pair E st i j = some st1 := by
  unfold interact_pair
  rw [List.getElem?_eq_getElem hi, List.getElem?_eq_getElem hj]
  exact ⟨_, rfl⟩

theorem interact_pair_length (E : collaborators Q B I G) (st st1 : I × List (sphere Q))
    (i j : ℕ) (h : interact_pair E st i j = some st1) : st1.2.length = st.2.length := by
  obtain ⟨_, _, rfl⟩ := interact_pair_eq_some E st st1 i j h
  simp

theorem interact_pair_map (E : collaborators Q B I G) {α : Type} (f : sphere Q → α)
    (hf : kept_by_interact E f) (st st1 : I × List (sphere Q))
    (i j : ℕ) (h : interact_pair E st i j = some st1) : st1.2.map f = st.2.map f := by
  obtain ⟨hi, hj, rfl⟩ := interact_pair_eq_some E st st1 i j h
  simp only [List.map_set, (hf _ _ _).1, (hf _ _ _).2]
  apply List.ext_getElem?
  intro k
  simp only [List.getElem?_set, List.length_set, List.length_map]
  by_cases hjk : j = k
  · subst hjk; simp [hj]
  · by_cases hik : i = k
    · subst hik; simp [hjk, hi]
    · simp [hjk, hik]

theorem neighbor_loop_eq_foldlM (E : collaborators Q B I G) (i : ℕ) (js : List ℕ) :
    ∀ st, neighbor_loop E i js st =
      ((js.filter fun j => decide (i < j)).map fun j => (i, j)).foldlM
        (fun st p => interact_pair E st p.1 p.2) st := by
  induction js with
  | nil => intro st; rfl
  | cons j js ih =>
    intro st
    by_cases hij : i < j
    · simp only [neighbor_loop, hij, if_true, List.filter_cons, decide_True, List.map_cons,
        List.foldlM_cons]
      cases h : interact_pair E st i j with
      | none => rfl
      | some st1 => simpa using ih st1
    · simp only [neighbor_loop, hij, if_false, List.filter_cons, decide_False]
      simpa using ih st

theorem sphere_loop_eq_foldlM (E : collaborators Q B I G) (g : G) (is : List ℕ) :
    ∀ st, sphere_loop E g is st =
      (is.flatMap fun i =>
        ((E.get_neighbors g i).filter fun j => decide (i < j)).map fun j => (i, j)).foldlM
        (fun st p => interact_pair E st p.1 p.2) st := by
  induction is with
  | nil => intro st; rfl
  | cons i is ih =>
    intro st
    simp only [sphere_loop, List.flatMap_cons, List.foldlM_append, neighbor_loop_eq_foldlM]
    cases h : List.foldlM (fun st p => interact_pair E st p.1 p.2) st
        (List.map (fun j => (i, j)) (List.filter (fun j => decide (i < j)) (E.get_neighbors g i))) with
    | none => rfl
    | some st1 => simpa using ih st1

theorem foldlM_pairs_length (E : collaborators Q B I G) (ps : List (ℕ × ℕ)) :
    ∀ st st1, ps.foldlM (fun st p => interact_pair E st p.1 p.2) st = some st1 →
      st1.2.length = st.2.length := by
  induction ps with
  | nil => intro st st1 h; simp at h; rw [← h]
  | cons p ps ih =>
    intro st st1 h
    simp only [List.foldlM_cons] at h
    cases hp : interact_pair E st p.1 p.2 with
    | none => rw [hp] at h; simp at h
    | some st2 =>
      rw [hp] at h
      have h2 : List.foldlM (fun st p => interact_pair E st p.1 p.2) st2 ps = some st1 := by
        simpa using h
      rw [ih st2 st1 h2, interact_pair_length E st st2 _ _ hp]

theorem foldlM_pairs_map (E : collaborators Q B I G) {α : Type} (f : sphere Q → α)
    (hf : kept_by_interact E f) (ps : List (ℕ × ℕ)) :
    ∀ st st1, ps.foldlM (fun st p => interact_pair E st p.1 p.2) st = some st1 →
      st1.2.map f = st.2.map f := by
  induction ps with
  | nil => intro st st1 h; simp at h; rw [← h]
  | cons p ps ih =>
    intro st st1 h
    simp only [List.foldlM_cons] at h
    cases hp : interact_pair E st p.1 p.2 with
    | none => rw [hp] at h; simp at h
    | some st2 =>
      rw [hp] at h
      have h2 : List.foldlM (fun st p => interact_pair E st p.1 p.2) st2 ps = some st1 := by
        simpa using h
      rw [ih st2 st1 h2, interact_pair_map E f hf st st2 _ _ hp]

theorem foldlM_pairs_isSome (E : collaborators Q B I G) (ps : List (ℕ × ℕ)) :
    ∀ st, (∀ p ∈ ps, p.1 < st.2.length ∧ p.2 < st.2.length) →
      ∃ st1, ps.foldlM (fun st p => interact_pair E st p.1 p.2) st = some st1 := by
  induction ps with
  | nil => intro st _; exact ⟨st, rfl⟩
  | cons p ps ih =>
    intro st h
    obtain ⟨st2, hp⟩ := interact_pair_isSome E st p.1 p.2 (h p (by simp)).1 (h p (by simp)).2
    have hlen := interact_pair_length E st st2 _ _ hp
    obtain ⟨st1, h1⟩ := ih st2 (fun q hq => by rw [hlen]; exact h q (by simp [hq]))
    exact ⟨st1, by simp [List.foldlM_cons, hp, h1]⟩

theorem brick_row_length (E : collaborators Q B I G) (l : List (sphere Q)) :
    ∀ bi b, (brick_row E bi b l).2.2.length = l.length := by
  induction l with
  | nil => intro bi b; rfl
  | cons s rest ih => intro bi b; simp [brick_row, ih]

theorem brick_row_map (E : collaborators Q B I G) {α : Type} (f : sphere Q → α)
    (hf : kept_by_interact_brick E f) (l : List (sphere Q)) :
    ∀ bi b, (brick_row E bi b l).2.2.map f = l.map f := by
  induction l with
  | nil => intro bi b; rfl
  | cons s rest ih => intro bi b; simp [brick_row, ih, hf _ _ _]

theorem brick_loop_length (E : collaborators Q B I G) (bs : List B) :
    ∀ bi (l : List (sphere Q)), (brick_loop E bi bs l).2.2.length = l.length := by
  induction bs with
  | nil => intro bi l; rfl
  | cons b bs ih => intro bi l; simp [brick_loop, ih, brick_row_length]

theorem brick_loop_map (E : collaborators Q B I G) {α : Type} (f : sphere Q → α)
    (hf : kept_by_interact_brick E f) (bs : List B) :
    ∀ bi (l : List (sphere Q)), (brick_loop E bi bs l).2.2.map f = l.map f := by
  induction bs with
  | nil => intro bi l; rfl
  | cons b bs ih => intro bi l; simp [brick_loop, ih, brick_row_map E f hf]


/-! ## One step -/

theorem vec3d_add_zero_scale (a : vec3d) (k : ℚ) : a + vec3d.zero * k = a := by
  show vec3d.add a (vec3d.scale vec3d.zero k) = a
  simp [vec3d.add, vec3d.scale, vec3d.zero]

theorem vec3d_zero_scale (k : ℚ) : vec3d.zero * k = vec3d.zero := by
  show vec3d.scale vec3d.zero k = vec3d.zero
  simp [vec3d.scale, vec3d.zero]

theorem step_eq_some (E : collaborators Q B I G) (w w1 : world Q B I G)
    (h : step E w = some w1) :
    ∃ st : I × List (sphere Q),
      (interaction_pairs E (update_grid_positions E (cleanup E w)).g
          (cleanup E w).spheres.length).foldlM
        (fun st p => interact_pair E st p.1 p.2) ((cleanup E w).bi, (cleanup E w).spheres)
        = some st ∧
      w1 = update_state_variable (position_updating E (interact_with_fixed_objects E
        { update_grid_positions E (cleanup E w) with bi := st.1, spheres := st.2 })) := by
  unfold step sphere_interactions at h
  rw [sphere_loop_eq_foldlM] at h
  simp only [Option.map_map, Option.map_eq_some', Function.comp] at h
  obtain ⟨st, h1, h2⟩ := h
  exact ⟨st, h1, h2.symm⟩

theorem step_of_foldlM (E : collaborators Q B I G) (w : world Q B I G)
    (st : I × List (sphere Q))
    (h : (interaction_pairs E (update_grid_positions E (cleanup E w)).g
          (cleanup E w).spheres.length).foldlM
        (fun st p => interact_pair E st p.1 p.2) ((cleanup E w).bi, (cleanup E w).spheres)
        = some st) :
    step E w = some (update_state_variable (position_updating E (interact_with_fixed_objects E
        { update_grid_positions E (cleanup E w) with bi := st.1, spheres := st.2 }))) := by
  unfold step sphere_interactions
  rw [sphere_loop_eq_foldlM]
  unfold interaction_pairs at h
  simp only [update_grid_positions] at h ⊢
  rw [h]
  rfl

theorem mem_interaction_pairs (E : collaborators Q B I G) (g : G) (n : ℕ) (p : ℕ × ℕ) :
    p ∈ interaction_pairs E g n ↔ p.1 < n ∧ p.2 ∈ E.get_neighbors g p.1 ∧ p.1 < p.2 := by
  obtain ⟨a, b⟩ := p
  simp only [interaction_pairs, List.mem_flatMap, List.mem_range, List.mem_map, List.mem_filter,
    decide_eq_true_eq, Prod.mk.injEq]
  constructor
  · rintro ⟨i, hi, j, ⟨hj, hij⟩, rfl, rfl⟩
    exact ⟨hi, hj, hij⟩
  · rintro ⟨hi, hj, hij⟩
    exact ⟨a, hi, b, ⟨hj, hij⟩, rfl, rfl⟩

theorem step_isSome (E : collaborators Q B I G) (w : world Q B I G)
    (h : ∀ i j, i < (cleanup E w).spheres.length →
      j ∈ E.get_neighbors (update_grid_positions E (cleanup E w)).g i →
      j < (cleanup E w).spheres.length) :
    ∃ w1, step E w = some w1 := by
  obtain ⟨st, hst⟩ := foldlM_pairs_isSome E
    (interaction_pairs E (update_grid_positions E (cleanup E w)).g (cleanup E w).spheres.length)
    ((cleanup E w).bi, (cleanup E w).spheres)
    (fun (p : ℕ × ℕ) hp => by
      rw [mem_interaction_pairs] at hp
      exact ⟨hp.1, h p.1 p.2 hp.1 hp.2.1⟩)
  exact ⟨_, step_of_foldlM E w st hst⟩

theorem step_length (E : collaborators Q B I G) (w w1 : world Q B I G)
    (h : step E w = some w1) : w1.spheres.length = (cleanup E w).spheres.length := by
  obtain ⟨st, hst, rfl⟩ := step_eq_some E w w1 h
  have := foldlM_pairs_length E _ _ _ hst
  simp [update_state_variable, position_updating, interact_with_fixed_objects,
    brick_loop_length, this]

theorem step_map (E : collaborators Q B I G) {α : Type} (f : sphere Q → α)
    (h1 : kept_by_interact E f) (h2 : kept_by_interact_brick E f)
    (h3 : ∀ dt s, f (integrate E dt s) = f s) (w w1 : world Q B I G)
    (h : step E w = some w1) : w1.spheres.map f = (cleanup E w).spheres.map f := by
  obtain ⟨st, hst, rfl⟩ := step_eq_some E w w1 h
  have := foldlM_pairs_map E f h1 _ _ _ hst
  simp only [update_state_variable, position_updating, interact_with_fixed_objects,
    List.map_map]
  have hc : (f ∘ integrate E (update_grid_positions E (cleanup E w)).dt) = f := by
    funext s; exact h3 _ s
  rw [hc, brick_loop_map E f h2, this]

theorem clean_fields (E : collaborators Q B I G) (w : world Q B I G) :
    (clean E w).bricks = w.bricks ∧ (clean E w).bi = w.bi ∧ (clean E w).c = w.c ∧
    (clean E w).min_box = w.min_box ∧ (clean E w).max_box = w.max_box ∧
    (clean E w).t = w.t ∧ (clean E w).dt = w.dt := by
  unfold clean
  split <;> simp

theorem cleanup_fields (E : collaborators Q B I G) (w : world Q B I G) :
    (cleanup E w).bricks = w.bricks ∧ (cleanup E w).bi = w.bi ∧ (cleanup E w).c = w.c ∧
    (cleanup E w).min_box = w.min_box ∧ (cleanup E w).max_box = w.max_box ∧
    (cleanup E w).t = w.t ∧ (cleanup E w).dt = w.dt := by
  unfold cleanup
  have := clean_fields E (update_flags w)
  simpa [update_flags] using this

theorem step_fields (E : collaborators Q B I G) (w w1 : world Q B I G)
    (h : step E w = some w1) :
    w1.t = w.t + w.dt ∧ w1.dt = w.dt ∧ w1.min_box = w.min_box ∧ w1.max_box = w.max_box ∧
      w1.c = w.c ∧ w1.bricks.length = w.bricks.length := by
  obtain ⟨st, hst, rfl⟩ := step_eq_some E w w1 h
  obtain ⟨hb, -, hc, hlo, hhi, ht, hdt⟩ := cleanup_fields E w
  have hbl : ∀ (bs : List B) bi (l : List (sphere Q)),
      (brick_loop E bi bs l).2.1.length = bs.length := by
    intro bs
    induction bs with
    | nil => intro bi l; rfl
    | cons b bs ih => intro bi l; simp [brick_loop, ih]
  simp [update_state_variable, position_updating, interact_with_fixed_objects,
    update_grid_positions, ht, hdt, hlo, hhi, hc, hbl, hb]

theorem cleanup_in_box (E : collaborators Q B I G) (w : world Q B I G) (s : sphere Q)
    (hs : s ∈ (cleanup E w).spheres) :
    s.flag = sphere.state.alive ∧ in_box w.min_box w.max_box s := by
  rw [cleanup_spheres] at hs
  have := (List.mem_filter.mp hs).2
  simpa [survives] using this

/-! ## Several steps -/

theorem step_n_succ_right (E : collaborators Q B I G) (n : ℕ) :
    ∀ w : world Q B I G, step_n E (n + 1) w = (step_n E n w).bind (step E) := by
  induction n with
  | zero =>
    intro w
    show (step E w).bind (step_n E 0) = step E w
    cases h : step E w with
    | none => rfl
    | some w1 => rfl
  | succ n ih =>
    intro w
    show (step E w).bind (step_n E (n + 1)) = ((step E w).bind (step_n E n)).bind (step E)
    cases h : step E w with
    | none => rfl
    | some w1 => simpa using ih w1

theorem step_n_add (E : collaborators Q B I G) (m n : ℕ) :
    ∀ w : world Q B I G, step_n E (m + n) w = (step_n E m w).bind (step_n E n) := by
  induction m with
  | zero => intro w; simp [step_n]
  | succ m ih =>
    intro w
    rw [Nat.succ_add]
    show (step E w).bind (step_n E (m + n)) = ((step E w).bind (step_n E m)).bind (step_n E n)
    cases h : step E w with
    | none => rfl
    | some w1 => simpa using ih w1


theorem step_n_fields (E : collaborators Q B I G) (n : ℕ) :
    ∀ w w1 : world Q B I G, step_n E n w = some w1 →
      w1.t = w.t + n * w.dt ∧ w1.dt = w.dt ∧ w1.min_box = w.min_box ∧
        w1.max_box = w.max_box := by
  induction n with
  | zero =>
    intro w w1 h
    simp only [step_n, Option.some.injEq] at h
    subst h
    simp
  | succ n ih =>
    intro w w1 h
    simp only [step_n] at h
    cases hs : step E w with
    | none => rw [hs] at h; simp at h
    | some w2 =>
      rw [hs] at h
      obtain ⟨ht, hdt, hlo, hhi, -, -⟩ := step_fields E w w2 hs
      obtain ⟨ht2, hdt2, hlo2, hhi2⟩ := ih w2 w1 (by simpa using h)
      refine ⟨?_, by rw [hdt2, hdt], by rw [hlo2, hlo], by rw [hhi2, hhi]⟩
      rw [ht2, ht, hdt]
      push_cast
      ring

theorem step_x0 (E : collaborators Q B I G)
    (h1 : kept_by_interact E (fun s : sphere Q => s.x0))
    (h2 : kept_by_interact_brick E (fun s : sphere Q => s.x0)) (w w1 : world Q B I G)
    (h : step E w = some w1) :
    w1.spheres.map (fun s => s.x0) =
      (w.spheres.filter (survives w.min_box w.max_box)).map (fun s => s.x0) := by
  rw [step_map E (fun s : sphere Q => s.x0) h1 h2 (fun _ _ => rfl) w w1 h, cleanup_spheres]

theorem step_n_x0_sublist (E : collaborators Q B I G)
    (h1 : kept_by_interact E (fun s : sphere Q => s.x0))
    (h2 : kept_by_interact_brick E (fun s : sphere Q => s.x0)) (n : ℕ) :
    ∀ w w1 : world Q B I G, step_n E n w = some w1 →
      List.Sublist (w1.spheres.map (fun s => s.x0)) (w.spheres.map (fun s => s.x0)) := by
  induction n with
  | zero =>
    intro w w1 h
    simp only [step_n, Option.some.injEq] at h
    subst h
    exact List.Sublist.refl _
  | succ n ih =>
    intro w w1 h
    simp only [step_n] at h
    cases hs : step E w with
    | none => rw [hs] at h; simp at h
    | some w2 =>
      rw [hs] at h
      have hsub := ih w2 w1 (by simpa using h)
      rw [step_x0 E h1 h2 w w2 hs] at hsub
      exact hsub.trans (List.Sublist.map _ (List.filter_sublist _))

theorem clean_from_no_kill (E : collaborators Q B I G) (k : ℕ) (g : G) (l : List (sphere Q))
    (h : ∀ s ∈ l, s.flag ≠ sphere.state.kill) : clean_from E k (g, l) = (g, l) := by
  induction k with
  | zero => rfl
  | succ k ih =>
    simp only [clean_from]
    cases hk : l[k]? with
    | none => simpa using ih
    | some s =>
      have hs : s ∈ l := List.getElem?_mem hk
      simp only [h s hs, if_false]
      exact ih

theorem cleanup_of_all_survive (E : collaborators Q B I G) (w : world Q B I G)
    (h : ∀ s ∈ w.spheres, survives w.min_box w.max_box s = true) : cleanup E w = w := by
  have hmap : w.spheres.map (flag_sphere w.min_box w.max_box) = w.spheres := by
    have hid : ∀ s ∈ w.spheres, flag_sphere w.min_box w.max_box s = id s := fun s hs =>
      flag_sphere_of_survives _ _ s (h s hs)
    rw [List.map_congr_left hid, List.map_id]
  have hu : update_flags w = w := by
    unfold update_flags
    rw [hmap]
  unfold cleanup
  rw [hu]
  unfold clean
  split
  · rfl
  · have hk : ∀ s ∈ w.spheres, s.flag ≠ sphere.state.kill := by
      intro s hs hkill
      have := h s hs
      simp [survives, hkill] at this
    simp only [clean_from_no_kill E _ _ _ hk]

theorem integrate_at_rest (E : collaborators Q B I G)
    (hq : ∀ q, E.q_plus q vec3d.zero = q) (dt : ℚ) (s : sphere Q)
    (hv : s.v = vec3d.zero) (hw : s.w = vec3d.zero) : integrate E dt s = s := by
  have h : integrate E dt s =
      { s with x := s.x + vec3d.zero * dt, q := E.q_plus s.q (vec3d.zero * dt) } := by
    unfold integrate
    rw [hv, hw]
  rw [h, vec3d_add_zero_scale, vec3d_zero_scale, hq]

/-- A world of spheres at rest: no brick, every sphere alive, inside the box,
with zero velocity and zero angular velocity. -/
theorem step_at_rest (E : collaborators Q B I G)
    (hlaw : kept_by_interact E (fun s : sphere Q => s))
    (hq : ∀ q, E.q_plus q vec3d.zero = q) (w w1 : world Q B I G)
    (hb : w.bricks = [])
    (hs : ∀ s ∈ w.spheres, survives w.min_box w.max_box s = true ∧
      s.v = vec3d.zero ∧ s.w = vec3d.zero)
    (h : step E w = some w1) :
    w1.spheres = w.spheres ∧ w1.bricks = [] ∧ w1.g = update_from E 0 w.spheres w.g := by
  obtain ⟨st, hst, rfl⟩ := step_eq_some E w w1 h
  have hc := cleanup_of_all_survive E w (fun s h => (hs s h).1)
  rw [hc] at hst ⊢
  have hmap := foldlM_pairs_map E (fun s : sphere Q => s) hlaw _ _ _ hst
  simp only [List.map_id_fun', id_eq] at hmap
  have hint : w.spheres.map (integrate E w.dt) = w.spheres := by
    have hid : ∀ s ∈ w.spheres, integrate E w.dt s = id s := fun s h =>
      integrate_at_rest E hq _ s (hs s h).2.1 (hs s h).2.2
    rw [List.map_congr_left hid, List.map_id]
  simp [update_state_variable, position_updating, interact_with_fixed_objects,
    update_grid_positions, hb, brick_loop, hmap, hint]

theorem step_n_at_rest (E : collaborators Q B I G)
    (hlaw : kept_by_interact E (fun s : sphere Q => s))
    (hq : ∀ q, E.q_plus q vec3d.zero = q) (n : ℕ) :
    ∀ w w1 : world Q B I G, w.bricks = [] →
      (∀ s ∈ w.spheres, survives w.min_box w.max_box s = true ∧
        s.v = vec3d.zero ∧ s.w = vec3d.zero) →
      step_n E n w = some w1 → w1.spheres = w.spheres := by
  induction n with
  | zero =>
    intro w w1 _ _ h
    simp only [step_n, Option.some.injEq] at h
    rw [h]
  | succ n ih =>
    intro w w1 hb hs h
    simp only [step_n] at h
    cases hstep : step E w with
    | none => rw [hstep] at h; simp at h
    | some w2 =>
      rw [hstep] at h
      obtain ⟨h1, h2, -⟩ := step_at_rest E hlaw hq w w2 hb hs hstep
      obtain ⟨-, -, hlo, hhi, -, -⟩ := step_fields E w w2 hstep
      rw [ih w2 w1 h2 (by rw [h1, hlo, hhi]; exact hs) (by simpa using h), h1]

theorem step_n_at_rest_isSome (E : collaborators Q B I G)
    (hlaw : kept_by_interact E (fun s : sphere Q => s))
    (hq : ∀ q, E.q_plus q vec3d.zero = q) (n : ℕ) :
    ∀ w : world Q B I G, w.bricks = [] →
      (∀ s ∈ w.spheres, survives w.min_box w.max_box s = true ∧
        s.v = vec3d.zero ∧ s.w = vec3d.zero) →
      (∀ k, k < n → ∀ i j, i < w.spheres.length →
        j ∈ E.get_neighbors ((update_from E 0 w.spheres)^[k + 1] w.g) i →
        j < w.spheres.length) →
      ∃ w1, step_n E n w = some w1 := by
  induction n with
  | zero => intro w _ _ _; exact ⟨w, rfl⟩
  | succ n ih =>
    intro w hb hs hnb
    have hc := cleanup_of_all_survive E w (fun s h => (hs s h).1)
    obtain ⟨w2, hstep⟩ := step_isSome E w (by
      rw [hc]
      intro i j hi hj
      exact hnb 0 (Nat.succ_pos n) i j hi hj)
    obtain ⟨h1, h2, h3⟩ := step_at_rest E hlaw hq w w2 hb hs hstep
    obtain ⟨-, -, hlo, hhi, -, -⟩ := step_fields E w w2 hstep
    obtain ⟨w1, hw1⟩ := ih w2 h2 (by rw [h1, hlo, hhi]; exact hs) (by
      intro k hk i j hi hj
      rw [h1] at hi hj ⊢
      rw [h3] at hj
      exact hnb (k + 1) (Nat.succ_lt_succ hk) i j hi
        (by rw [Function.iterate_succ_apply]; exact hj))
    exact ⟨w1, by simp [step_n, hstep, hw1]⟩

theorem filter_survives_all_but_one (lo hi : vec3d) (l1 l2 : List (sphere Q)) (s : sphere Q)
    (hall : ∀ a ∈ l1 ++ l2, survives lo hi a = true) (hs : survives lo hi s = false) :
    (l1 ++ s :: l2).filter (survives lo hi) = l1 ++ l2 := by
  rw [List.filter_append, List.filter_cons, hs]
  simp only [Bool.false_eq_true, if_false]
  rw [List.filter_eq_self.mpr (fun a ha => hall a (List.mem_append_left _ ha)),
    List.filter_eq_self.mpr (fun a ha => hall a (List.mem_append_right _ ha))]

theorem n_sequential_steps_succ (E : collaborators Q B I G) (n : ℕ) (w : world Q B I G) :
    n_sequential_steps E (n + 1) w = (n_sequential_steps E n w).bind (step E) := by
  unfold n_sequential_steps
  rw [Function.iterate_succ_apply']

theorem step_n_eq_sequential (E : collaborators Q B I G) (n : ℕ) (w : world Q B I G) :
    step_n E n w = n_sequential_steps E n w := by
  induction n with
  | zero => rfl
  | succ n ih => rw [step_n_succ_right, n_sequential_steps_succ, ih]

theorem calls_on_row (i j k : ℕ) (l : List ℕ) (hij : i < j) :
    calls_on ((l.filter fun b => decide (k < b)).map fun b => (k, b)) i j =
      if k = i then List.count j l else 0 := by
  unfold calls_on
  induction l with
  | nil => simp
  | cons b l ih =>
    by_cases hkb : k < b
    · simp only [List.filter_cons, hkb, decide_True, if_true, List.map_cons, List.countP_cons,
        ih, List.count_cons]
      by_cases hk : k = i
      · subst hk
        by_cases hb : b = j
        · subst hb; simp
        · simp [hb]
      · simp [hk]
    · have hf : List.filter (fun b => decide (k < b)) (b :: l) =
          List.filter (fun b => decide (k < b)) l := by
        simp [List.filter_cons, hkb]
      rw [hf, ih]
      by_cases hk : k = i
      · subst hk
        have hb : ¬ b = j := by omega
        simp [List.count_cons, hb]
      · simp [hk]

theorem calls_on_append (ps qs : List (ℕ × ℕ)) (i j : ℕ) :
    calls_on (ps ++ qs) i j = calls_on ps i j + calls_on qs i j := by
  unfold calls_on
  rw [List.countP_append]

theorem calls_on_interaction_pairs (E : collaborators Q B I G) (g : G) (n i j : ℕ)
    (hij : i < j) :
    calls_on (interaction_pairs E g n) i j =
      if i < n then List.count j (E.get_neighbors g i) else 0 := by
  unfold interaction_pairs
  induction n with
  | zero => simp [calls_on]
  | succ n ih =>
    rw [List.range_succ, List.flatMap_append, calls_on_append, ih]
    simp only [List.flatMap_cons, List.flatMap_nil, List.append_nil]
    rw [calls_on_row i j n _ hij]
    by_cases h1 : i < n
    · have h2 : n ≠ i := by omega
      have h3 : i < n + 1 := by omega
      simp [h1, h2, h3]
    · by_cases h2 : n = i
      · subst h2
        simp
      · have h3 : ¬ i < n + 1 := by omega
        simp [h1, h2, h3]

theorem calls_on_interaction_pairs_not_lt (E : collaborators Q B I G) (g : G) (n i j : ℕ)
    (hij : ¬ i < j) : calls_on (interaction_pairs E g n) i j = 0 := by
  unfold calls_on
  rw [List.countP_eq_zero]
  intro p hp
  rw [mem_interaction_pairs] at hp
  simp only [decide_eq_true_eq, not_and]
  intro h1 h2
  rw [h1, h2] at hp
  exact hij hp.2.2

theorem step_eq_interact_along (E : collaborators Q B I G) (w : world Q B I G) :
    step E w =
      (interact_along E
        (interaction_pairs E (update_grid_positions E (cleanup E w)).g
          (num_spheres (cleanup E w)))
        ((cleanup E w).bi, (cleanup E w).spheres)).map
        (fun st => update_state_variable (position_updating E (interact_with_fixed_objects E
          { update_grid_positions E (cleanup E w) with bi := st.1, spheres := st.2 }))) := by
  unfold interact_along num_spheres
  cases h : List.foldlM (fun (st : I × List (sphere Q)) (p : ℕ × ℕ) => interact_pair E st p.1 p.2)
      ((cleanup E w).bi, (cleanup E w).spheres)
      (interaction_pairs E (update_grid_positions E (cleanup E w)).g
        (cleanup E w).spheres.length) with
  | some st => rw [step_of_foldlM E w st h]; rfl
  | none =>
    cases hs : step E w with
    | none => rfl
    | some w1 =>
      obtain ⟨st, hst, -⟩ := step_eq_some E w w1 hs
      rw [h] at hst
      simp at hst

theorem load_save (E : collaborators Q B I G) (live w : world Q B I G) (filename : String)
    (fs : files Q B I G) :
    load E live filename (save w filename fs) =
      some { cleanup E (copy_what_w_had live w) with
             g := E.complete_refresh (E.grid w.c w.min_box w.max_box)
               (w.spheres.filter (survives w.min_box w.max_box)) } := by
  obtain ⟨-, -, h3, h4, h5, -, -⟩ := cleanup_fields E (copy_what_w_had live w)
  have hs := cleanup_spheres E (copy_what_w_had live w)
  simp only [load, save, if_true, Option.map_some']
  unfold cleanup at h3 h4 h5 hs ⊢
  rw [h3, h4, h5, hs]
  rfl

/-! ## Construction and flags -/

theorem not_in_box_iff (lo hi : vec3d) (s : sphere Q) :
    ¬ in_box lo hi s ↔ ∃ k, k < lo.size ∧ (s.x.get k < lo.get k ∨ s.x.get k > hi.get k) := by
  unfold in_box
  constructor
  · intro h
    by_contra hne
    apply h
    intro k hk
    by_contra hb
    apply hne
    refine ⟨k, hk, ?_⟩
    by_cases h1 : s.x.get k < lo.get k
    · exact Or.inl h1
    · right
      by_contra h2
      exact hb ⟨not_lt.mp h1, not_lt.mp h2⟩
  · rintro ⟨k, hk, hout⟩ h
    obtain ⟨h1, h2⟩ := h k hk
    rcases hout with h3 | h3
    · exact absurd h1 (not_le.mpr h3)
    · exact absurd h2 (not_le.mpr h3)

theorem to_unsigned_of_fits (x : ℚ) (h0 : 0 ≤ x) (h1 : ⌊x⌋ < 2 ^ 32) :
    to_unsigned x = some (Int.toNat ⌊x⌋) := by
  unfold to_unsigned
  have hx : x < 2 ^ 32 := by
    have h2 : x < ((2 ^ 32 : ℤ) : ℚ) := Int.floor_lt.mp h1
    simpa using h2
  rw [if_pos ⟨by linarith, hx⟩]

theorem rounded_cells_of_fits (lo hi cs : vec3d) (i : ℕ) (hpos : 0 < cs.get i)
    (hext : lo.get i ≤ hi.get i)
    (hfit : ⌊(hi.get i - lo.get i) / cs.get i + 1 / 2⌋ < 2 ^ 32) :
    rounded_cells lo hi cs i =
      some (Int.toNat ⌊(hi.get i - lo.get i) / cs.get i + 1 / 2⌋) := by
  unfold rounded_cells
  rw [if_neg (ne_of_gt hpos)]
  apply to_unsigned_of_fits _ _ hfit
  have : 0 ≤ (hi.get i - lo.get i) / cs.get i :=
    div_nonneg (by linarith) (le_of_lt hpos)
  linarith

theorem cell_counts_get_mk (f : ℕ → ℕ) (i : ℕ) (hi : i < 3) :
    cell_counts.get { c0 := f 0, c1 := f 1, c2 := f 2 } i = f i := by
  interval_cases i <;> rfl

theorem world_ctor_cell_size_of_rounded (E : collaborators Q B I G)
    (min_box max_box cell_size : vec3d) (bi : I) (dt : ℚ) (f : ℕ → ℕ)
    (h : ∀ i, i < 3 → rounded_cells min_box max_box cell_size i = some (f i)) :
    world_ctor_cell_size E min_box max_box cell_size bi dt =
      some { spheres := [], bricks := [], bi := bi, c := { c0 := f 0, c1 := f 1, c2 := f 2 },
             min_box := min_box, max_box := max_box, t := 0, dt := dt,
             g := E.grid { c0 := f 0, c1 := f 1, c2 := f 2 } min_box max_box,
             grid_step_counter := 0 } := by
  simp only [world_ctor_cell_size, h 0 (by omega), h 1 (by omega), h 2 (by omega),
    Option.some_bind]

/-! ## The call record of the cleanup pass -/

theorem clean_from_log_fst (E : collaborators Q B I G) (k : ℕ) :
    ∀ (st : G × List (sphere Q)) (log : List (clean_event Q)),
      (clean_from_log E k (st, log)).1 = clean_from E k st := by
  induction k with
  | zero => intro st log; rfl
  | succ k ih =>
    intro st log
    simp only [clean_from_log, clean_from]
    cases hk : st.2[k]? with
    | none => exact ih st log
    | some s =>
      by_cases hf : s.flag = sphere.state.kill
      · simp only [hf, if_true]
        exact ih _ _
      · simp only [hf, if_false]
        exact ih st log

theorem kill_list_congr (k : ℕ) (l l1 : List (sphere Q))
    (h : ∀ i, i < k → l[i]? = l1[i]?) : kill_list k l = kill_list k l1 := by
  induction k with
  | zero => rfl
  | succ k ih =>
    simp only [kill_list]
    rw [← h k (Nat.lt_succ_self k), ih (fun i hi => h i (Nat.lt_succ_of_lt hi))]

theorem clean_from_log_eq (E : collaborators Q B I G) (k : ℕ) :
    ∀ (g : G) (l : List (sphere Q)) (log : List (clean_event Q)), k ≤ l.length →
      (clean_from_log E k ((g, l), log)).1.1 =
        (kill_list k l).foldl (fun g p => E.remove g p.2 p.1) g ∧
      (clean_from_log E k ((g, l), log)).2 =
        log ++ (kill_list k l).flatMap
          (fun p => [clean_event.grid_remove p.2 p.1, clean_event.erase p.1]) := by
  induction k with
  | zero => intro g l log _; simp [clean_from_log, kill_list]
  | succ k ih =>
    intro g l log hk
    have hlt : k < l.length := hk
    have hget : l[k]? = some l[k] := List.getElem?_eq_getElem hlt
    simp only [clean_from_log, kill_list, hget]
    by_cases hf : l[k].flag = sphere.state.kill
    · simp only [hf, if_true]
      have hlen : k ≤ (l.eraseIdx k).length := by
        rw [List.length_eraseIdx]; simp [hlt]; omega
      have hc : kill_list k (l.eraseIdx k) = kill_list k l :=
        kill_list_congr k _ _ (fun i hi => List.getElem?_eraseIdx_of_lt l k i hi)
      obtain ⟨h1, h2⟩ := ih (E.remove g l[k] k) (l.eraseIdx k)
        (log ++ [clean_event.grid_remove l[k] k, clean_event.erase k]) hlen
      rw [h1, h2, hc]
      simp
    · simp only [hf, if_false]
      exact ih g l log (Nat.le_of_lt hlt)

theorem mem_kill_list (k : ℕ) (l : List (sphere Q)) (i : ℕ) (s : sphere Q) :
    (i, s) ∈ kill_list k l ↔ i < k ∧ l[i]? = some s ∧ s.flag = sphere.state.kill := by
  induction k with
  | zero => simp [kill_list]
  | succ k ih =>
    simp only [kill_list]
    cases hk : l[k]? with
    | none =>
      simp only [ih]
      constructor
      · rintro ⟨h1, h2, h3⟩
        exact ⟨Nat.lt_succ_of_lt h1, h2, h3⟩
      · rintro ⟨h1, h2, h3⟩
        refine ⟨?_, h2, h3⟩
        rcases Nat.lt_succ_iff_lt_or_eq.mp h1 with h | h
        · exact h
        · subst h; rw [hk] at h2; simp at h2
    | some a =>
      by_cases hf : a.flag = sphere.state.kill
      · simp only [hf, if_true, List.mem_cons, Prod.mk.injEq, ih]
        constructor
        · rintro (⟨rfl, rfl⟩ | ⟨h1, h2, h3⟩)
          · exact ⟨Nat.lt_succ_self _, hk, hf⟩
          · exact ⟨Nat.lt_succ_of_lt h1, h2, h3⟩
        · rintro ⟨h1, h2, h3⟩
          rcases Nat.lt_succ_iff_lt_or_eq.mp h1 with h | h
          · exact Or.inr ⟨h, h2, h3⟩
          · subst h
            rw [hk] at h2
            simp only [Option.some.injEq] at h2
            exact Or.inl ⟨rfl, h2.symm⟩
      · simp only [hf, if_false, ih]
        constructor
        · rintro ⟨h1, h2, h3⟩
          exact ⟨Nat.lt_succ_of_lt h1, h2, h3⟩
        · rintro ⟨h1, h2, h3⟩
          refine ⟨?_, h2, h3⟩
          rcases Nat.lt_succ_iff_lt_or_eq.mp h1 with h | h
          · exact h
          · subst h
            rw [hk] at h2
            simp only [Option.some.injEq] at h2
            rw [h2] at hf
            exact absurd h3 hf

theorem kill_list_descending (k : ℕ) (l : List (sphere Q)) :
    List.Pairwise (fun a b => a > b) ((kill_list k l).map fun p => p.1) := by
  induction k with
  | zero => simp [kill_list]
  | succ k ih =>
    simp only [kill_list]
    cases hk : l[k]? with
    | none => exact ih
    | some a =>
      by_cases hf : a.flag = sphere.state.kill
      · simp only [hf, if_true, List.map_cons, List.pairwise_cons]
        refine ⟨?_, ih⟩
        intro j hj
        obtain ⟨p, hp, rfl⟩ := List.mem_map.mp hj
        exact ((mem_kill_list k l p.1 p.2).mp hp).1
      · simp only [hf, if_false]
        exact ih

theorem kill_list_length (k : ℕ) (l : List (sphere Q)) (hk : k ≤ l.length) :
    (kill_list k l).length +
      ((l.take k).filter (fun s => decide (s.flag ≠ sphere.state.kill))).length = k := by
  induction k with
  | zero => simp [kill_list]
  | succ k ih =>
    have hlt : k < l.length := hk
    have hget : l[k]? = some l[k] := List.getElem?_eq_getElem hlt
    have htake : l.take (k + 1) = l.take k ++ [l[k]] := by
      rw [List.take_succ, hget]; rfl
    have := ih (Nat.le_of_lt hlt)
    simp only [kill_list, hget, htake, List.filter_append, List.length_append]
    by_cases hf : l[k].flag = sphere.state.kill
    · have hone : List.filter (fun s : sphere Q => decide (s.flag ≠ sphere.state.kill)) [l[k]]
          = [] := by
        simp [List.filter, hf]
      simp only [hf, if_true, hone, List.length_cons, List.length_nil]
      omega
    · have hone : List.filter (fun s : sphere Q => decide (s.flag ≠ sphere.state.kill)) [l[k]]
          = [l[k]] := by
        simp [List.filter, hf]
      simp only [hf, if_false, hone, List.length_cons, List.length_nil]
      omega

theorem flatMap_infix_of_mem {α β : Type} (f : α → List β) (L : List α) (a : α)
    (h : a ∈ L) : f a <:+: L.flatMap f := by
  obtain ⟨s, t, rfl⟩ := List.append_of_mem h
  refine ⟨s.flatMap f, t.flatMap f, ?_⟩
  simp [List.flatMap_append]

theorem clean_log_eq (E : collaborators Q B I G) (w : world Q B I G) :
    (clean E w).g =
      (kill_list w.spheres.length w.spheres).foldl (fun g p => E.remove g p.2 p.1) w.g ∧
    clean_log E w =
      (kill_list w.spheres.length w.spheres).flatMap
        (fun p => [clean_event.grid_remove p.2 p.1, clean_event.erase p.1]) := by
  unfold clean clean_log
  by_cases he : w.spheres = []
  · simp [he, kill_list]
  · have hne : w.spheres.isEmpty = false := by simpa using he
    obtain ⟨h1, h2⟩ := clean_from_log_eq E w.spheres.length w.g w.spheres [] le_rfl
    have h3 := clean_from_log_fst E w.spheres.length (w.g, w.spheres) []
    simp only [hne, Bool.false_eq_true, if_false]
    rw [h2, ← h3, h1]
    simp

theorem cleanup_idem (E : collaborators Q B I G) (w : world Q B I G) :
    cleanup E (cleanup E w) = cleanup E w := by
  apply cleanup_of_all_survive
  intro s hs
  obtain ⟨-, -, -, hlo, hhi, -, -⟩ := cleanup_fields E w
  rw [hlo, hhi]
  have := cleanup_in_box E w s hs
  simp [survives, this.1, this.2]

theorem step_cleanup (E : collaborators Q B I G) (w : world Q B I G) :
    step E (cleanup E w) = step E w := by
  unfold step
  rw [cleanup_idem]

theorem step_grid (E : collaborators Q B I G) (w w1 : world Q B I G)
    (h : step E w = some w1) :
    w1.g = update_from E 0 (cleanup E w).spheres (cleanup E w).g := by
  obtain ⟨st, -, rfl⟩ := step_eq_some E w w1 h
  rfl

/-! ## The calls of the brick-sphere law -/

theorem set_of_getElem? {α : Type} (l : List α) (i : ℕ) (a : α) (h : l[i]? = some a) :
    l.set i a = l := by
  apply List.ext_getElem?
  intro k
  rw [List.getElem?_set]
  by_cases hik : i = k
  · subst hik
    have hlt : i < l.length := by
      by_contra hge
      rw [List.getElem?_eq_none (Nat.le_of_not_lt hge)] at h
      simp at h
    simp [hlt, h]
  · simp [hik]

theorem brick_row_eq_foldl (E : collaborators Q B I G) (bidx : ℕ) :
    ∀ (todo done : List (sphere Q)) (bi : I) (b : B) (bricks : List B),
      bricks[bidx]? = some b →
      ((List.range' done.length todo.length).map fun s => (bidx, s)).foldl
          (interact_brick_at E) (bi, bricks, done ++ todo) =
        ((brick_row E bi b todo).1, bricks.set bidx (brick_row E bi b todo).2.1,
          done ++ (brick_row E bi b todo).2.2) := by
  intro todo
  induction todo with
  | nil =>
    intro done bi b bricks hb
    simp [brick_row, set_of_getElem? bricks bidx b hb]
  | cons s rest ih =>
    intro done bi b bricks hb
    have hlt : bidx < bricks.length := by
      by_contra hge
      rw [List.getElem?_eq_none (Nat.le_of_not_lt hge)] at hb
      simp at hb
    have hs : (done ++ s :: rest)[done.length]? = some s := by
      rw [List.getElem?_append_right (le_refl _)]
      simp
    have hset : (done ++ s :: rest).set done.length (E.interact_brick bi b s).2.2 =
        (done ++ [(E.interact_brick bi b s).2.2]) ++ rest := by
      rw [List.set_append_right _ _ (le_refl _)]
      simp
    have hb2 : (bricks.set bidx (E.interact_brick bi b s).2.1)[bidx]? =
        some (E.interact_brick bi b s).2.1 := by
      simp [hlt]
    have hstep : interact_brick_at E (bi, bricks, done ++ s :: rest) (bidx, done.length) =
        ((E.interact_brick bi b s).1, bricks.set bidx (E.interact_brick bi b s).2.1,
          (done ++ [(E.interact_brick bi b s).2.2]) ++ rest) := by
      simp only [interact_brick_at, hb, hs]
      rw [hset]
    have hih := ih (done ++ [(E.interact_brick bi b s).2.2]) (E.interact_brick bi b s).1
      (E.interact_brick bi b s).2.1 (bricks.set bidx (E.interact_brick bi b s).2.1) hb2
    simp only [List.length_append, List.length_cons, List.length_nil] at hih
    simp only [List.length_cons, List.range'_succ, List.map_cons, List.foldl_cons, hstep]
    rw [hih]
    simp [brick_row, List.set_set]

theorem brick_loop_eq_foldl (E : collaborators Q B I G) :
    ∀ (todo done : List B) (bi : I) (l : List (sphere Q)),
      ((List.range' done.length todo.length).flatMap fun b =>
          (List.range l.length).map fun s => (b, s)).foldl
          (interact_brick_at E) (bi, done ++ todo, l) =
        ((brick_loop E bi todo l).1, done ++ (brick_loop E bi todo l).2.1,
          (brick_loop E bi todo l).2.2) := by
  intro todo
  induction todo with
  | nil =>
    intro done bi l
    simp [brick_loop]
  | cons b bs ih =>
    intro done bi l
    have hb : (done ++ b :: bs)[done.length]? = some b := by
      rw [List.getElem?_append_right (le_refl _)]
      simp
    have hrow := brick_row_eq_foldl E done.length l [] bi b (done ++ b :: bs) hb
    simp only [List.length_nil, List.nil_append, ← List.range_eq_range'] at hrow
    have hset : (done ++ b :: bs).set done.length (brick_row E bi b l).2.1 =
        (done ++ [(brick_row E bi b l).2.1]) ++ bs := by
      rw [List.set_append_right _ _ (le_refl _)]
      simp
    have hih := ih (done ++ [(brick_row E bi b l).2.1]) (brick_row E bi b l).1
      (brick_row E bi b l).2.2
    simp only [List.length_append, List.length_cons, List.length_nil,
      brick_row_length] at hih
    simp only [List.length_cons, List.range'_succ, List.flatMap_cons, List.foldl_append, hrow,
      hset]
    rw [hih]
    simp [brick_loop]

theorem interact_with_fixed_objects_eq (E : collaborators Q B I G) (w : world Q B I G) :
    interact_with_fixed_objects E w =
      { w with
        bi := ((brick_pairs w.bricks.length w.spheres.length).foldl (interact_brick_at E)
          (w.bi, w.bricks, w.spheres)).1,
        bricks := ((brick_pairs w.bricks.length w.spheres.length).foldl (interact_brick_at E)
          (w.bi, w.bricks, w.spheres)).2.1,
        spheres := ((brick_pairs w.bricks.length w.spheres.length).foldl (interact_brick_at E)
          (w.bi, w.bricks, w.spheres)).2.2 } := by
  have h := brick_loop_eq_foldl E w.bricks [] w.bi w.spheres
  simp only [List.length_nil, List.nil_append, ← List.range_eq_range'] at h
  unfold brick_pairs interact_with_fixed_objects
  rw [h]

theorem calls_on_brick_row (k ns b s : ℕ) :
    calls_on ((List.range ns).map fun j => (k, j)) b s =
      if k = b ∧ s < ns then 1 else 0 := by
  unfold calls_on
  induction ns with
  | zero => simp
  | succ n ih =>
    rw [List.range_succ, List.map_append, List.countP_append, ih]
    by_cases hk : k = b
    · subst hk
      by_cases h1 : s < n
      · have h2 : ¬ n = s := by omega
        have h3 : s < n + 1 := by omega
        simp [h1, h2, h3]
      · by_cases h2 : n = s
        · subst h2; simp
        · have h3 : ¬ s < n + 1 := by omega
          simp [h1, h2, h3]
    · simp [hk]

theorem calls_on_brick_pairs (nb ns b s : ℕ) :
    calls_on (brick_pairs nb ns) b s = if b < nb ∧ s < ns then 1 else 0 := by
  unfold brick_pairs
  induction nb with
  | zero => simp [calls_on]
  | succ n ih =>
    rw [List.range_succ, List.flatMap_append, calls_on_append, ih]
    simp only [List.flatMap_cons, List.flatMap_nil, List.append_nil]
    rw [calls_on_brick_row]
    by_cases hs : s < ns
    · by_cases h1 : b < n
      · have h2 : ¬ n = b := by omega
        have h3 : b < n + 1 := by omega
        simp [h1, h2, h3, hs]
      · by_cases h2 : n = b
        · subst h2; simp [hs]
        · have h3 : ¬ b < n + 1 := by omega
          simp [h1, h2, h3]
    · simp [hs]

theorem brick_pairs_length (nb ns : ℕ) : (brick_pairs nb ns).length = nb * ns := by
  unfold brick_pairs
  induction nb with
  | zero => simp
  | succ n ih =>
    rw [List.range_succ, List.flatMap_append, List.length_append, ih]
    simp
    ring

/-! ## The spheres at the end of a step -/

theorem step_spheres (E : collaborators Q B I G) (w w1 : world Q B I G)
    (h : step E w = some w1) :
    ∃ l2 : List (sphere Q), w1.spheres = l2.map (integrate E w.dt) ∧
      ∀ (α : Type) (f : sphere Q → α), kept_by_interact E f → kept_by_interact_brick E f →
        l2.map f = (w.spheres.filter (survives w.min_box w.max_box)).map f := by
  obtain ⟨st, hst, rfl⟩ := step_eq_some E w w1 h
  obtain ⟨-, -, -, -, -, -, hdt⟩ := cleanup_fields E w
  refine ⟨(brick_loop E st.1 (cleanup E w).bricks st.2).2.2, ?_, ?_⟩
  · simp [update_state_variable, position_updating, interact_with_fixed_objects,
      update_grid_positions, hdt]
  · intro α f h1 h2
    rw [brick_loop_map E f h2, foldlM_pairs_map E f h1 _ _ _ hst, cleanup_spheres]

/-! ## The record grid -/

theorem recorded_cons (e : ℕ × vec3d) (g : List (ℕ × vec3d)) (i : ℕ) :
    recorded (e :: g) i = if e.1 = i then some e.2 else recorded g i := by
  unfold recorded
  by_cases h : e.1 = i
  · simp [List.find?_cons, h]
  · simp [List.find?_cons, h]

theorem recorded_map_ne (g : List (ℕ × vec3d)) (p : vec3d) (i j : ℕ) (hij : i ≠ j) :
    recorded (g.map fun e => if e.1 = j then (j, p) else e) i = recorded g i := by
  induction g with
  | nil => rfl
  | cons e g ih =>
    rw [List.map_cons, recorded_cons, recorded_cons, ih]
    by_cases he : e.1 = j
    · have h1 : ¬ j = i := fun h => hij h.symm
      have h2 : ¬ e.1 = i := by rw [he]; exact h1
      simp [he, h1, h2]
    · simp [he]

theorem recorded_map_eq (g : List (ℕ × vec3d)) (p : vec3d) (j : ℕ)
    (h : g.any (fun e => decide (e.1 = j)) = true) :
    recorded (g.map fun e => if e.1 = j then (j, p) else e) j = some p := by
  induction g with
  | nil => simp at h
  | cons e g ih =>
    rw [List.map_cons, recorded_cons]
    by_cases he : e.1 = j
    · simp [he]
    · have h2 : g.any (fun e => decide (e.1 = j)) = true := by
        simpa [List.any_cons, he] using h
      simp [he, ih h2]

theorem recorded_none_of_not_any (g : List (ℕ × vec3d)) (j : ℕ)
    (h : ¬ g.any (fun e => decide (e.1 = j)) = true) : recorded g j = none := by
  induction g with
  | nil => rfl
  | cons e g ih =>
    rw [recorded_cons]
    have he : ¬ e.1 = j := by
      intro he
      apply h
      simp [List.any_cons, he]
    have h2 : ¬ g.any (fun e => decide (e.1 = j)) = true := by
      intro h2
      apply h
      simp only [List.any_cons, h2, Bool.or_true]
    simp [he, ih h2]

theorem recorded_append_one (g : List (ℕ × vec3d)) (p : vec3d) (i j : ℕ) :
    recorded (g ++ [(j, p)]) i =
      (recorded g i).or (if j = i then some p else none) := by
  induction g with
  | nil =>
    rw [List.nil_append, recorded_cons]
    by_cases h : j = i <;> simp [h, recorded]
  | cons e g ih =>
    rw [List.cons_append, recorded_cons, recorded_cons, ih]
    by_cases he : e.1 = i <;> simp [he]

theorem recorded_update (E : collaborators Q B I G) (g : List (ℕ × vec3d)) (s : sphere Q)
    (i j : ℕ) :
    recorded ((record_grid E true).update g s j) i =
      if i = j then some s.x else recorded g i := by
  show recorded (if g.any (fun e => decide (e.1 = j)) then
      g.map fun e => if e.1 = j then (j, s.x) else e
    else if true = true then g ++ [(j, s.x)] else g) i = _
  by_cases hany : g.any (fun e => decide (e.1 = j)) = true
  · rw [if_pos hany]
    by_cases hij : i = j
    · subst hij
      rw [recorded_map_eq g s.x i hany, if_pos rfl]
    · rw [recorded_map_ne g s.x i j hij, if_neg hij]
  · rw [if_neg hany, if_pos rfl, recorded_append_one]
    by_cases hij : i = j
    · subst hij
      rw [recorded_none_of_not_any g i hany]
      simp
    · have hji : ¬ j = i := fun h => hij h.symm
      simp [hij, hji]

theorem recorded_update_from (E : collaborators Q B I G) (l : List (sphere Q)) :
    ∀ (n : ℕ) (g : List (ℕ × vec3d)) (i : ℕ),
      recorded (update_from (record_grid E true) n l g) i =
        if n ≤ i ∧ i < n + l.length then (l[i - n]?).map (fun s => s.x) else recorded g i := by
  induction l with
  | nil =>
    intro n g i
    have h : ¬ (n ≤ i ∧ i < n + ([] : List (sphere Q)).length) := by
      simp only [List.length_nil]; omega
    rw [if_neg h]
    rfl
  | cons s rest ih =>
    intro n g i
    show recorded (update_from (record_grid E true) (n + 1) rest
      ((record_grid E true).update g s n)) i = _
    rw [ih, recorded_update]
    by_cases h1 : n + 1 ≤ i ∧ i < n + 1 + rest.length
    · have h2 : n ≤ i ∧ i < n + (s :: rest).length := by
        simp only [List.length_cons]; omega
      have h3 : i - n = (i - (n + 1)) + 1 := by omega
      rw [if_pos h1, if_pos h2, h3, List.getElem?_cons_succ]
    · rw [if_neg h1]
      by_cases h4 : i = n
      · subst h4
        have h2 : i ≤ i ∧ i < i + (s :: rest).length := by
          simp only [List.length_cons]; omega
        rw [if_pos rfl, if_pos h2]
        simp
      · have h2 : ¬ (n ≤ i ∧ i < n + (s :: rest).length) := by
          simp only [List.length_cons]; omega
        rw [if_neg h4, if_neg h2]

/-! ## The record grid keeps the indices of the collection -/

theorem iterate_add_clock (t d : ℚ) (n : ℕ) : (fun u => u + d)^[n] t = t + n * d := by
  induction n with
  | zero => simp
  | succ n ih =>
    rw [Function.iterate_succ_apply', ih]
    push_cast
    ring

theorem clock_binary64_ten :
    clock_binary64 10 0 (binary64_round (1 / 1000)) = 1441151880758559 / 2 ^ 57 := by
  have hd : binary64_round (1 / 1000) = 1152921504606847 / 2 ^ 60 := by decide!
  have h1 : binary64_round (0 + 1152921504606847 / 2 ^ 60) =
      1152921504606847 / 2 ^ 60 := by decide!
  have h2 : binary64_round (1152921504606847 / 2 ^ 60 + 1152921504606847 / 2 ^ 60) =
      1152921504606847 / 2 ^ 59 := by decide!
  have h3 : binary64_round (1152921504606847 / 2 ^ 59 + 1152921504606847 / 2 ^ 60) =
      3458764513820541 / 2 ^ 60 := by decide!
  have h4 : binary64_round (3458764513820541 / 2 ^ 60 + 1152921504606847 / 2 ^ 60) =
      1152921504606847 / 2 ^ 58 := by decide!
  have h5 : binary64_round (1152921504606847 / 2 ^ 58 + 1152921504606847 / 2 ^ 60) =
      5764607523034235 / 2 ^ 60 := by decide!
  have h6 : binary64_round (5764607523034235 / 2 ^ 60 + 1152921504606847 / 2 ^ 60) =
      3458764513820541 / 2 ^ 59 := by decide!
  have h7 : binary64_round (3458764513820541 / 2 ^ 59 + 1152921504606847 / 2 ^ 60) =
      8070450532247929 / 2 ^ 60 := by decide!
  have h8 : binary64_round (8070450532247929 / 2 ^ 60 + 1152921504606847 / 2 ^ 60) =
      1152921504606847 / 2 ^ 57 := by decide!
  have h9 : binary64_round (1152921504606847 / 2 ^ 57 + 1152921504606847 / 2 ^ 60) =
      1297036692682703 / 2 ^ 57 := by decide!
  have h10 : binary64_round (1297036692682703 / 2 ^ 57 + 1152921504606847 / 2 ^ 60) =
      1441151880758559 / 2 ^ 57 := by decide!
  rw [hd]
  simp only [clock_binary64, Function.iterate_succ, Function.iterate_zero, Function.comp, id]
  rw [h1, h2, h3, h4, h5, h6, h7, h8, h9, h10]


theorem binary64_round_values :
    binary64_round (1 / 1000) = 1152921504606847 / 2 ^ 60 ∧
    binary64_round (1 / 10) = 3602879701896397 / 2 ^ 55 ∧
    binary64_round (-1 / 3) = -(6004799503160661 / 2 ^ 54) ∧
    binary64_round 3 = 3 ∧
    binary64_round (2 ^ 53 + 1) = 2 ^ 53 ∧
    binary64_round (2 ^ 53 + 3) = 2 ^ 53 + 4 := by
  refine ⟨by decide!, by decide!, by decide!, by decide!, by decide!, by decide!⟩
/-! ## The claims -/

/-- C1: `get_sphere (i)` returns the sphere stored at position `i` when
`i < num_spheres ()` and throws `std::out_of_range` exactly when
`num_spheres () ≤ i`, in particular at `i = num_spheres ()`; `get_brick (i)`
does the same on the bricks; neither call changes the world. -/
theorem C1_get_sphere_get_brick (w : world Q B I G) (i : ℕ) :
    (∀ h : i < num_spheres w, (get_sphere w i).1 = Except.ok (w.spheres.get ⟨i, h⟩)) ∧
    ((∃ msg, (get_sphere w i).1 = Except.error (exn.out_of_range msg)) ↔ num_spheres w ≤ i) ∧
    (∃ msg, (get_sphere w (num_spheres w)).1 = Except.error (exn.out_of_range msg)) ∧
    (∀ h : i < num_bricks w, (get_brick w i).1 = Except.ok (w.bricks.get ⟨i, h⟩)) ∧
    ((∃ msg, (get_brick w i).1 = Except.error (exn.out_of_range msg)) ↔ num_bricks w ≤ i) ∧
    (get_sphere w i).2 = w ∧ (get_brick w i).2 = w := by
  refine ⟨?_, ?_, ?_, ?_, ?_, ?_, ?_⟩
  · intro h
    simp only [num_spheres] at h
    simp [get_sphere, h]
  · constructor
    · rintro ⟨msg, hm⟩
      by_contra hlt
      have h : i < w.spheres.length := by simpa [num_spheres] using hlt
      simp [get_sphere, h] at hm
    · intro h
      have h2 : ¬ i < w.spheres.length := by simpa [num_spheres] using h
      exact ⟨"requested sphere outside of range", by simp [get_sphere, h2]⟩
  · exact ⟨"requested sphere outside of range", by simp [get_sphere, num_spheres]⟩
  · intro h
    simp only [num_bricks] at h
    simp [get_brick, h]
  · constructor
    · rintro ⟨msg, hm⟩
      by_contra hlt
      have h : i < w.bricks.length := by simpa [num_bricks] using hlt
      simp [get_brick, h] at hm
    · intro h
      have h2 : ¬ i < w.bricks.length := by simpa [num_bricks] using h
      exact ⟨"requested brick outside of range", by simp [get_brick, h2]⟩
  · simp only [get_sphere]; split <;> rfl
  · simp only [get_brick]; split <;> rfl

/-- C2: after `add_sphere (s)` on a world with `n` spheres, `num_spheres ()` is
`n + 1`, `get_sphere (n)` is `s` with `x0` replaced by `s.x`, `get_sphere (k)`
is unchanged for `k < n`, and the grid received `add` with that sphere and the
index `n`. -/
theorem C2_add_sphere (E : collaborators Q B I G) (w : world Q B I G) (s : sphere Q) :
    num_spheres (add_sphere E w s) = num_spheres w + 1 ∧
    (get_sphere (add_sphere E w s) (num_spheres w)).1 = Except.ok { s with x0 := s.x } ∧
    (∀ k, k < num_spheres w →
      (get_sphere (add_sphere E w s) k).1 = (get_sphere w k).1) ∧
    (add_sphere E w s).g = E.add w.g { s with x0 := s.x } (num_spheres w) := by
  refine ⟨?_, ?_, ?_, ?_⟩
  · simp [num_spheres, add_sphere]
  · simp [get_sphere, num_spheres, add_sphere]
  · intro k hk
    simp only [num_spheres] at hk
    have hk2 : k < (w.spheres ++ [{ s with x0 := s.x }]).length := by
      simp; omega
    simp [get_sphere, add_sphere, hk, List.getElem_append_left, Nat.lt_succ_of_lt hk]
  · rfl


/-- C3: when the law does not write `x0`, the sphere stored by `add_sphere`
has `x0` equal to its position at insertion, the reference positions of the
spheres present after any number of steps are, in order, reference positions
stamped at insertion, and each step carries the reference positions of the
spheres it keeps over unchanged, index by index. -/
theorem C3_reference_position (E : collaborators Q B I G)
    (h1 : kept_by_interact E (fun s : sphere Q => s.x0))
    (h2 : kept_by_interact_brick E (fun s : sphere Q => s.x0))
    (w : world Q B I G) (s : sphere Q) (n : ℕ) (w1 : world Q B I G)
    (hrun : step_n E n (add_sphere E w s) = some w1) :
    (add_sphere E w s).spheres.map (fun a => a.x0) = w.spheres.map (fun a => a.x0) ++ [s.x] ∧
    List.Sublist (w1.spheres.map (fun a => a.x0)) (w.spheres.map (fun a => a.x0) ++ [s.x]) ∧
    (∀ u u1 : world Q B I G, step E u = some u1 →
      u1.spheres.map (fun a => a.x0) =
        (u.spheres.filter (survives u.min_box u.max_box)).map (fun a => a.x0)) := by
  have hadd : (add_sphere E w s).spheres.map (fun a => a.x0) =
      w.spheres.map (fun a => a.x0) ++ [s.x] := by
    simp [add_sphere]
  refine ⟨hadd, ?_, fun u u1 hu => step_x0 E h1 h2 u u1 hu⟩
  rw [← hadd]
  exact step_n_x0_sublist E h1 h2 n _ _ hrun

/-- C3 at a sphere drifting along the first axis: after two steps its position
has changed and its reference position is the position of insertion. -/
theorem C3_reference_position_witness :
    step_n one_cell 2 drift_world
      = some { drift_world with
          spheres := [{ ball { c0 := 251 / 500, c1 := 1 / 2, c2 := 1 / 2 }
                          { c0 := 1, c1 := 0, c2 := 0 } with
                        x0 := { c0 := 1 / 2, c1 := 1 / 2, c2 := 1 / 2 } }],
          t := 1 / 500 } ∧
    List.Sublist
      ([{ ball { c0 := 251 / 500, c1 := 1 / 2, c2 := 1 / 2 }
            { c0 := 1, c1 := 0, c2 := 0 } with
          x0 := { c0 := 1 / 2, c1 := 1 / 2, c2 := 1 / 2 } }].map (fun a => a.x0))
      (empty_world.spheres.map (fun a => a.x0) ++ [{ c0 := 1 / 2, c1 := 1 / 2, c2 := 1 / 2 }]) :=
  ⟨by decide!,
   (C3_reference_position one_cell (fun _ _ _ => ⟨rfl, rfl⟩) (fun _ _ _ => rfl) empty_world
      (ball { c0 := 1 / 2, c1 := 1 / 2, c2 := 1 / 2 } { c0 := 1, c1 := 0, c2 := 0 }) 2
      { drift_world with
          spheres := [{ ball { c0 := 251 / 500, c1 := 1 / 2, c2 := 1 / 2 }
                          { c0 := 1, c1 := 0, c2 := 0 } with
                        x0 := { c0 := 1 / 2, c1 := 1 / 2, c2 := 1 / 2 } }],
          t := 1 / 500 }
      (by decide!)).2.1⟩

/-- C4 as stated fails: one step of `fast_world` completes, the sphere is still
in the world, and its first coordinate is `3/2`, above `max_box`. -/
theorem C4_counterexample :
    (step_n one_cell 1 fast_world).map
        (fun w => w.spheres.map
          (fun s => (s.x, decide (in_box w.min_box w.max_box s)))) =
      some [({ c0 := 3 / 2, c1 := 1 / 2, c2 := 1 / 2 }, false)] := by
  decide!

/-- C4 (amended): when `step (n)` with `n ≥ 1` completes, its outcome is the
outcome of the last single step from the world `u` reached after `n - 1` steps;
every sphere kept by the cleanup pass of that last step is alive and inside the
box at that point, before interaction and integration, and the outcome holds
as many spheres as the cleanup pass kept. -/
theorem C4_box_after_cleanup (E : collaborators Q B I G) (w w1 : world Q B I G) (n : ℕ)
    (hn : 1 ≤ n) (hrun : step_n E n w = some w1) :
    ∃ u, step_n E (n - 1) w = some u ∧ step E u = some w1 ∧
      u.min_box = w.min_box ∧ u.max_box = w.max_box ∧
      (∀ s ∈ (cleanup E u).spheres,
        s.flag = sphere.state.alive ∧ in_box w.min_box w.max_box s) ∧
      num_spheres w1 = num_spheres (cleanup E u) := by
  obtain ⟨m, rfl⟩ : ∃ m, n = m + 1 := ⟨n - 1, by omega⟩
  rw [step_n_succ_right] at hrun
  cases hu : step_n E m w with
  | none => rw [hu] at hrun; simp at hrun
  | some u =>
    rw [hu] at hrun
    have hlast : step E u = some w1 := by simpa using hrun
    obtain ⟨-, -, hlo, hhi⟩ := step_n_fields E m w u hu
    refine ⟨u, by simpa using hu, hlast, hlo, hhi, ?_, step_length E u w1 hlast⟩
    intro s hs
    rw [← hlo, ← hhi]
    exact cleanup_in_box E u s hs

/-- C4 (amended) at one step of `fast_world`. -/
theorem C4_box_after_cleanup_witness :
    1 ≤ 1 ∧
    step_n one_cell 1 fast_world
      = some { fast_world with
          spheres := [{ ball { c0 := 3 / 2, c1 := 1 / 2, c2 := 1 / 2 }
                          { c0 := 1000, c1 := 0, c2 := 0 } with
                        x0 := { c0 := 1 / 2, c1 := 1 / 2, c2 := 1 / 2 } }],
          t := 1 / 1000 } ∧
    ∃ u, step_n one_cell (1 - 1) fast_world = some u ∧
      step one_cell u = some { fast_world with
          spheres := [{ ball { c0 := 3 / 2, c1 := 1 / 2, c2 := 1 / 2 }
                          { c0 := 1000, c1 := 0, c2 := 0 } with
                        x0 := { c0 := 1 / 2, c1 := 1 / 2, c2 := 1 / 2 } }],
          t := 1 / 1000 } ∧
      u.min_box = fast_world.min_box ∧ u.max_box = fast_world.max_box ∧
      (∀ s ∈ (cleanup one_cell u).spheres,
        s.flag = sphere.state.alive ∧ in_box fast_world.min_box fast_world.max_box s) ∧
      num_spheres { fast_world with
          spheres := [{ ball { c0 := 3 / 2, c1 := 1 / 2, c2 := 1 / 2 }
                          { c0 := 1000, c1 := 0, c2 := 0 } with
                        x0 := { c0 := 1 / 2, c1 := 1 / 2, c2 := 1 / 2 } }],
          t := 1 / 1000 } = num_spheres (cleanup one_cell u) :=
  ⟨by decide, by decide!,
   C4_box_after_cleanup one_cell fast_world _ 1 (by decide) (by decide!)⟩

/-- C5: the cleanup pass of a step keeps exactly the spheres that were alive
and inside the box, unmodified and in their order; a step that completes ends
with as many spheres as that, carries every quantity that law and integration
do not write over index by index, and `get_sphere` succeeds below the new
count; a world with exactly one sphere outside the box, all others alive and
inside, loses exactly one sphere; and the step completes when the neighbour
indices answered by the grid are inside the collection. -/
theorem C5_step_keeps_survivors (E : collaborators Q B I G) (w : world Q B I G) :
    (cleanup E w).spheres = w.spheres.filter (survives w.min_box w.max_box) ∧
    (∀ w1, step E w = some w1 →
      num_spheres w1 = (w.spheres.filter (survives w.min_box w.max_box)).length ∧
      (∀ i, i < num_spheres w1 → ∃ s, (get_sphere w1 i).1 = Except.ok s) ∧
      (∀ (α : Type) (f : sphere Q → α), kept_by_interact E f → kept_by_interact_brick E f →
        (∀ dt s, f (integrate E dt s) = f s) →
        w1.spheres.map f = (w.spheres.filter (survives w.min_box w.max_box)).map f) ∧
      (∀ l1 s l2, w.spheres = l1 ++ s :: l2 →
        (∀ a ∈ l1 ++ l2, survives w.min_box w.max_box a = true) →
        ¬ in_box w.min_box w.max_box s → num_spheres w1 + 1 = num_spheres w)) ∧
    ((∀ i j, i < num_spheres (cleanup E w) →
        j ∈ E.get_neighbors (update_grid_positions E (cleanup E w)).g i →
        j < num_spheres (cleanup E w)) →
      ∃ w1, step E w = some w1) := by
  refine ⟨cleanup_spheres E w, ?_, fun h => step_isSome E w h⟩
  intro w1 hrun
  have hlen : num_spheres w1 = (w.spheres.filter (survives w.min_box w.max_box)).length := by
    unfold num_spheres
    rw [step_length E w w1 hrun, cleanup_spheres]
  refine ⟨hlen, ?_, ?_, ?_⟩
  · intro i hi
    exact ⟨_, get_sphere_fst_ok w1 i hi⟩
  · intro α f h1 h2 h3
    rw [step_map E f h1 h2 h3 w w1 hrun, cleanup_spheres]
  · intro l1 s l2 hw hall hs
    have hs2 : survives w.min_box w.max_box s = false := by
      simp [survives, hs]
    rw [hlen, hw, filter_survives_all_but_one _ _ l1 l2 s hall hs2]
    simp [num_spheres, hw]
    omega

/-- C5 at `stray_world`: two spheres inside the unit domain and one outside;
one step completes and leaves the two, in their order. -/
theorem C5_step_keeps_survivors_witness :
    step one_cell stray_world = some { rest_pair with t := 1 / 1000, bi := 1 } ∧
    num_spheres { rest_pair with t := 1 / 1000, bi := 1 } + 1 = num_spheres stray_world ∧
    num_spheres { rest_pair with t := 1 / 1000, bi := 1 } =
      (stray_world.spheres.filter
        (survives stray_world.min_box stray_world.max_box)).length :=
  ⟨by decide!,
   ((C5_step_keeps_survivors one_cell stray_world).2.1 _ (by decide!)).2.2.2
      rest_pair.spheres
      { ball { c0 := 2, c1 := 1 / 2, c2 := 1 / 2 } vec3d.zero with
        x0 := { c0 := 2, c1 := 1 / 2, c2 := 1 / 2 } } []
      (by decide!) (by decide!) (by decide!),
   ((C5_step_keeps_survivors one_cell stray_world).2.1 _ (by decide!)).1⟩

/-- C6 as stated fails on `double` values: ten executions of `t += dt` from
clock 0 with `dt` the `double` nearest to 0.001, each sum rounded to the
nearest `double`, end at `1441151880758559 / 2^57` (printed
0.010000000000000002), which is not the `double` nearest to 0.01,
`5764607523034235 / 2^59`. -/
theorem C6_counterexample :
    clock_binary64 10 0 (binary64_round (1 / 1000)) = 1441151880758559 / 2 ^ 57 ∧
    binary64_round (1 / 100) = 5764607523034235 / 2 ^ 59 ∧
    clock_binary64 10 0 (binary64_round (1 / 1000)) ≠ binary64_round (1 / 100) := by
  have h2 : binary64_round (1 / 100) = 5764607523034235 / 2 ^ 59 := by decide!
  refine ⟨clock_binary64_ten, h2, ?_⟩
  rw [clock_binary64_ten, h2]
  decide!

/-- C6 (amended): in a world with no brick whose spheres are all alive, inside
the box and at rest (zero velocity and zero angular velocity), under a law that
writes no sphere and an orientation sum that leaves `q` unchanged when the zero
vector is added: `step (n)`, when it completes, leaves every sphere (position
and orientation included) and the number of spheres unchanged, and the clock is
the outcome of `n` successive additions of `dt`, which over exact rational
arithmetic is `t + n * dt`; and it completes when the neighbour indices
answered by the grid in each of the `n` steps are inside the collection. -/
theorem C6_spheres_at_rest (E : collaborators Q B I G)
    (hlaw : kept_by_interact E (fun s : sphere Q => s))
    (hq : ∀ q, E.q_plus q vec3d.zero = q) (w : world Q B I G) (n : ℕ)
    (hb : w.bricks = [])
    (hs : ∀ s ∈ w.spheres, s.flag = sphere.state.alive ∧ in_box w.min_box w.max_box s ∧
      s.v = vec3d.zero ∧ s.w = vec3d.zero) :
    (∀ w1, step_n E n w = some w1 →
      w1.spheres = w.spheres ∧ num_spheres w1 = num_spheres w ∧
      w1.t = (fun u => u + w.dt)^[n] w.t ∧ w1.t = w.t + n * w.dt) ∧
    ((∀ k, k < n → ∀ i j, i < num_spheres w →
        j ∈ E.get_neighbors ((update_from E 0 w.spheres)^[k + 1] w.g) i →
        j < num_spheres w) →
      ∃ w1, step_n E n w = some w1) := by
  have hs2 : ∀ s ∈ w.spheres, survives w.min_box w.max_box s = true ∧
      s.v = vec3d.zero ∧ s.w = vec3d.zero := by
    intro s h
    obtain ⟨h1, h2, h3, h4⟩ := hs s h
    exact ⟨by simp [survives, h1, h2], h3, h4⟩
  constructor
  · intro w1 hrun
    have h1 := step_n_at_rest E hlaw hq n w w1 hb hs2 hrun
    have ht := (step_n_fields E n w w1 hrun).1
    exact ⟨h1, by simp [num_spheres, h1], by rw [ht, iterate_add_clock], ht⟩
  · intro hnb
    exact step_n_at_rest_isSome E hlaw hq n w hb hs2 hnb

/-- C6 (amended) at the two spheres 0.1 apart with `dt = 1/1000`, clock 0 and
`n = 10`: the step completes, the spheres are unchanged and the clock is
`1/100` in exact rational arithmetic. -/
theorem C6_spheres_at_rest_witness :
    step_n one_cell 10 rest_pair = some { rest_pair with t := 1 / 100, bi := 10 } ∧
    ({ rest_pair with t := 1 / 100, bi := 10 } : world vec3d ℕ ℕ (List ℕ)).spheres
      = rest_pair.spheres ∧
    num_spheres ({ rest_pair with t := 1 / 100, bi := 10 } : world vec3d ℕ ℕ (List ℕ))
      = num_spheres rest_pair ∧
    ({ rest_pair with t := 1 / 100, bi := 10 } : world vec3d ℕ ℕ (List ℕ)).t
      = (fun u => u + rest_pair.dt)^[10] rest_pair.t ∧
    ({ rest_pair with t := 1 / 100, bi := 10 } : world vec3d ℕ ℕ (List ℕ)).t
      = rest_pair.t + (10 : ℕ) * rest_pair.dt ∧
    rest_pair.t + (10 : ℕ) * rest_pair.dt = 1 / 100 :=
  ⟨by decide!,
   ((C6_spheres_at_rest one_cell (fun _ _ _ => ⟨rfl, rfl⟩)
      (fun q => by
        show vec3d.add q vec3d.zero = q
        simp [vec3d.add, vec3d.zero])
      rest_pair 10 rfl (by decide!)).1 _ (by decide!)).1,
   ((C6_spheres_at_rest one_cell (fun _ _ _ => ⟨rfl, rfl⟩)
      (fun q => by
        show vec3d.add q vec3d.zero = q
        simp [vec3d.add, vec3d.zero])
      rest_pair 10 rfl (by decide!)).1 _ (by decide!)).2.1,
   ((C6_spheres_at_rest one_cell (fun _ _ _ => ⟨rfl, rfl⟩)
      (fun q => by
        show vec3d.add q vec3d.zero = q
        simp [vec3d.add, vec3d.zero])
      rest_pair 10 rfl (by decide!)).1 _ (by decide!)).2.2.1,
   ((C6_spheres_at_rest one_cell (fun _ _ _ => ⟨rfl, rfl⟩)
      (fun q => by
        show vec3d.add q vec3d.zero = q
        simp [vec3d.add, vec3d.zero])
      rest_pair 10 rfl (by decide!)).1 _ (by decide!)).2.2.2,
   by decide!⟩

/-- C7: `step (n)` is the single step applied `n` times in sequence:
`step (0)` leaves the world unchanged, `step (1)` is `step ()`,
`step (m + n)` is `step (m)` followed by `step (n)`, and `step (n)` equals the
`n`-fold sequential application of the single step. -/
theorem C7_step_n_sequential (E : collaborators Q B I G) (w : world Q B I G) (m n : ℕ) :
    step_n E 0 w = some w ∧
    step_n E 1 w = step E w ∧
    step_n E (m + n) w = (step_n E m w).bind (step_n E n) ∧
    step_n E n w = n_sequential_steps E n w := by
  refine ⟨rfl, ?_, step_n_add E m n w, step_n_eq_sequential E n w⟩
  show (step E w).bind (step_n E 0) = step E w
  cases step E w <;> rfl

/-- C8: in a step, the calls of the sphere-sphere law are the entries of
`interaction_pairs`, one call per entry in that order; for distinct surviving
indices `i`, `j` that the grid reports in both directions (its answers being
sets: no index twice), exactly one entry is the pair, taken with the smaller
index first, and no entry pairs an index with itself. -/
theorem C8_mutual_pair_once (E : collaborators Q B I G) (w : world Q B I G) (i j : ℕ)
    (hij : i ≠ j)
    (hi : i < num_spheres (cleanup E w)) (hj : j < num_spheres (cleanup E w))
    (hset : answers_sets E (update_grid_positions E (cleanup E w)).g)
    (h1 : j ∈ E.get_neighbors (update_grid_positions E (cleanup E w)).g i)
    (h2 : i ∈ E.get_neighbors (update_grid_positions E (cleanup E w)).g j) :
    step E w =
      (interact_along E
        (interaction_pairs E (update_grid_positions E (cleanup E w)).g
          (num_spheres (cleanup E w)))
        ((cleanup E w).bi, (cleanup E w).spheres)).map
        (fun st => update_state_variable (position_updating E (interact_with_fixed_objects E
          { update_grid_positions E (cleanup E w) with bi := st.1, spheres := st.2 }))) ∧
    calls_on (interaction_pairs E (update_grid_positions E (cleanup E w)).g
        (num_spheres (cleanup E w))) i j +
      calls_on (interaction_pairs E (update_grid_positions E (cleanup E w)).g
        (num_spheres (cleanup E w))) j i = 1 ∧
    ∀ k, calls_on (interaction_pairs E (update_grid_positions E (cleanup E w)).g
        (num_spheres (cleanup E w))) k k = 0 := by
  refine ⟨step_eq_interact_along E w, ?_, fun k =>
    calls_on_interaction_pairs_not_lt E _ _ k k (lt_irrefl k)⟩
  rcases Nat.lt_or_gt_of_ne hij with hlt | hgt
  · rw [calls_on_interaction_pairs E _ _ i j hlt,
      calls_on_interaction_pairs_not_lt E _ _ j i (by omega), if_pos hi,
      List.count_eq_one_of_mem (hset i) h1]
  · rw [calls_on_interaction_pairs E _ _ j i hgt,
      calls_on_interaction_pairs_not_lt E _ _ i j (by omega), if_pos hj,
      List.count_eq_one_of_mem (hset j) h2]

/-- C8 at the two spheres of `rest_pair` in the one-cell grid, which reports
each as a neighbour of the other: the pair gets one call, and the counting law
ends the step at one call. -/
theorem C8_mutual_pair_once_witness :
    (calls_on (interaction_pairs one_cell
        (update_grid_positions one_cell (cleanup one_cell rest_pair)).g
        (num_spheres (cleanup one_cell rest_pair))) 0 1 +
      calls_on (interaction_pairs one_cell
        (update_grid_positions one_cell (cleanup one_cell rest_pair)).g
        (num_spheres (cleanup one_cell rest_pair))) 1 0 = 1) ∧
    (step one_cell rest_pair).map (fun w => w.bi) = some 1 :=
  ⟨(C8_mutual_pair_once one_cell rest_pair 0 1 (by decide) (by decide!) (by decide!)
      (fun _ => List.Nodup.filter _ (by decide!)) (by decide!) (by decide!)).2.1,
   by decide!⟩

/-- C9 as stated fails: with the grid of `lower_only`, sphere 0 is reported
among the neighbours of sphere 1 and both survive, yet the step makes no call
of the sphere-sphere law (the counting law stays at 0). -/
theorem C9_counterexample :
    (0 ∈ lower_only.get_neighbors
        (update_grid_positions lower_only (cleanup lower_only rest_pair)).g 1) ∧
    num_spheres (cleanup lower_only rest_pair) = 2 ∧
    interaction_pairs lower_only
        (update_grid_positions lower_only (cleanup lower_only rest_pair)).g
        (num_spheres (cleanup lower_only rest_pair)) = [] ∧
    (step lower_only rest_pair).map (fun w => (num_spheres w, w.bi)) = some (2, 0) := by
  decide!

/-- C9 (amended): in a step, the calls of the sphere-sphere law are the entries
of `interaction_pairs`, one call per entry; for surviving indices `i < j` the
pair is called as many times as `j` occurs in the neighbour sequence that the
grid answers for the smaller index `i`, always with `i` first: once when `j`
occurs there once, and never when the pair is reported only as `i` among the
neighbours of `j`. -/
theorem C9_pair_calls (E : collaborators Q B I G) (w : world Q B I G) (i j : ℕ)
    (hij : i < j) (hj : j < num_spheres (cleanup E w)) :
    step E w =
      (interact_along E
        (interaction_pairs E (update_grid_positions E (cleanup E w)).g
          (num_spheres (cleanup E w)))
        ((cleanup E w).bi, (cleanup E w).spheres)).map
        (fun st => update_state_variable (position_updating E (interact_with_fixed_objects E
          { update_grid_positions E (cleanup E w) with bi := st.1, spheres := st.2 }))) ∧
    calls_on (interaction_pairs E (update_grid_positions E (cleanup E w)).g
        (num_spheres (cleanup E w))) i j =
      List.count j (E.get_neighbors (update_grid_positions E (cleanup E w)).g i) ∧
    calls_on (interaction_pairs E (update_grid_positions E (cleanup E w)).g
        (num_spheres (cleanup E w))) j i = 0 ∧
    (j ∉ E.get_neighbors (update_grid_positions E (cleanup E w)).g i →
      calls_on (interaction_pairs E (update_grid_positions E (cleanup E w)).g
        (num_spheres (cleanup E w))) i j = 0) := by
  have hc := calls_on_interaction_pairs E (update_grid_positions E (cleanup E w)).g
    (num_spheres (cleanup E w)) i j hij
  rw [if_pos (by omega)] at hc
  refine ⟨step_eq_interact_along E w, hc,
    calls_on_interaction_pairs_not_lt E _ _ j i (by omega), ?_⟩
  intro hnot
  rw [hc]
  exact List.count_eq_zero_of_not_mem hnot

/-- C9 (amended) at the two spheres of `rest_pair`: the one-cell grid lists
sphere 1 once for sphere 0 and the pair gets one call; the grid of `lower_only`
lists nothing for sphere 0 and the pair gets none. -/
theorem C9_pair_calls_witness :
    (calls_on (interaction_pairs one_cell
        (update_grid_positions one_cell (cleanup one_cell rest_pair)).g
        (num_spheres (cleanup one_cell rest_pair))) 0 1 =
      List.count 1 (one_cell.get_neighbors
        (update_grid_positions one_cell (cleanup one_cell rest_pair)).g 0)) ∧
    List.count 1 (one_cell.get_neighbors
        (update_grid_positions one_cell (cleanup one_cell rest_pair)).g 0) = 1 ∧
    calls_on (interaction_pairs lower_only
        (update_grid_positions lower_only (cleanup lower_only rest_pair)).g
        (num_spheres (cleanup lower_only rest_pair))) 0 1 = 0 :=
  ⟨(C9_pair_calls one_cell rest_pair 0 1 (by decide) (by decide!)).2.1,
   by decide!,
   (C9_pair_calls lower_only rest_pair 0 1 (by decide) (by decide!)).2.2.2 (by decide!)⟩

/-- C10 as stated fails: the world reached from `fast_world` by one step holds
one sphere (at `x = 3/2`); saving it and loading the file yields a world with
no sphere. -/
theorem C10_counterexample :
    (step one_cell fast_world).map (fun w => num_spheres w) = some 1 ∧
    (step one_cell fast_world).bind
        (fun w => (load one_cell empty_world "w.bin" (save w "w.bin" (fun _ => none))).map
          (fun w1 => num_spheres w1)) = some 0 := by
  decide!

/-- C10 (amended): `save` followed by `load` of the same file succeeds and
yields the saved bricks, law, cell counts, bounds, clock and time-step, and as
sphere collection the saved spheres that are alive and inside the box,
unmodified and in their order; the saved collection itself when all its
spheres are alive and inside the box. -/
theorem C10_save_load (E : collaborators Q B I G) (live w : world Q B I G)
    (filename : String) (fs : files Q B I G) :
    ∃ w1, load E live filename (save w filename fs) = some w1 ∧
      w1.spheres = w.spheres.filter (survives w.min_box w.max_box) ∧
      w1.bricks = w.bricks ∧ w1.bi = w.bi ∧ w1.c = w.c ∧
      w1.min_box = w.min_box ∧ w1.max_box = w.max_box ∧
      w1.t = w.t ∧ w1.dt = w.dt ∧
      ((∀ s ∈ w.spheres, s.flag = sphere.state.alive ∧ in_box w.min_box w.max_box s) →
        w1.spheres = w.spheres) := by
  refine ⟨_, load_save E live w filename fs, ?_⟩
  obtain ⟨h1, h2, h3, h4, h5, h6, h7⟩ := cleanup_fields E (copy_what_w_had live w)
  have hs := cleanup_spheres E (copy_what_w_had live w)
  refine ⟨hs, h1, h2, h3, h4, h5, h6, h7, ?_⟩
  intro hall
  show (cleanup E (copy_what_w_had live w)).spheres = w.spheres
  rw [hs]
  apply List.filter_eq_self.mpr
  intro s hmem
  have := hall s hmem
  simpa [survives, copy_what_w_had] using this

/-- C11: after `load`, the grid of the live world is a fresh
`grid (c, min_box, max_box)` of the persisted cell counts and bounds on which
`complete_refresh` was run with the restored collection after its cleanup; it
is the same for every live world, every grid held by the live world and every
grid stored in the archive, and so are the neighbours it answers. -/
theorem C11_load_rebuilds_grid (E : collaborators Q B I G) (live live2 P : world Q B I G)
    (g2 : G) (filename filename2 : String) (fs fs2 : files Q B I G) :
    (∃ w1, load E live filename (save P filename fs) = some w1 ∧
      w1.spheres = P.spheres.filter (survives P.min_box P.max_box) ∧
      w1.g = E.complete_refresh (E.grid P.c P.min_box P.max_box) w1.spheres) ∧
    (load E live2 filename2 (save { P with g := g2 } filename2 fs2)).map (fun w => w.g) =
      (load E live filename (save P filename fs)).map (fun w => w.g) ∧
    (∀ i, (load E live2 filename2 (save { P with g := g2 } filename2 fs2)).map
        (fun w => E.get_neighbors w.g i) =
      (load E live filename (save P filename fs)).map (fun w => E.get_neighbors w.g i)) := by
  have h1 := load_save E live P filename fs
  have h2 := load_save E live2 { P with g := g2 } filename2 fs2
  refine ⟨⟨_, h1, cleanup_spheres E (copy_what_w_had live P), ?_⟩, ?_, ?_⟩
  · show _ = E.complete_refresh _ (cleanup E (copy_what_w_had live P)).spheres
    rw [cleanup_spheres]
    rfl
  · rw [h1, h2]
    rfl
  · intro i
    rw [h1, h2]
    rfl

/-- C15 as stated fails: the time-step of a default-constructed world is
`0.001`, not zero. -/
theorem C15_counterexample :
    (world_ctor one_cell 0 unit_lo unit_hi).dt = 1 / 1000 ∧
    (world_ctor one_cell 0 unit_lo unit_hi).dt ≠ 0 := by
  decide!

/-- C15 (amended): a default-constructed world has no spheres and no bricks,
cell counts `(1, 1, 1)`, a grid constructed for them, clock `t = 0`, and
time-step `dt = 0.001`. -/
theorem C15_default_world (E : collaborators Q B I G) (bi : I) (min_box max_box : vec3d) :
    num_spheres (world_ctor E bi min_box max_box) = 0 ∧
    num_bricks (world_ctor E bi min_box max_box) = 0 ∧
    (world_ctor E bi min_box max_box).c = { c0 := 1, c1 := 1, c2 := 1 } ∧
    (world_ctor E bi min_box max_box).g =
      E.grid { c0 := 1, c1 := 1, c2 := 1 } min_box max_box ∧
    (world_ctor E bi min_box max_box).t = 0 ∧
    (world_ctor E bi min_box max_box).dt = 1 / 1000 := by
  refine ⟨rfl, rfl, rfl, rfl, rfl, rfl⟩

/-- C16 as stated fails: for the strictly positive cell size `2^-32` on the
first axis of the unit domain the quotient plus one half is `2^32 + 1/2`, which
no `unsigned int` holds; the conversion is undefined and no world is
constructed. -/
theorem C16_counterexample :
    (0 : ℚ) < (vec3d.get { c0 := 1 / 2 ^ 32, c1 := 1, c2 := 1 } 0) ∧
    (unit_hi.get 0 - unit_lo.get 0) / (vec3d.get { c0 := 1 / 2 ^ 32, c1 := 1, c2 := 1 } 0)
      + 1 / 2 = 2 ^ 32 + 1 / 2 ∧
    world_ctor_cell_size one_cell unit_lo unit_hi { c0 := 1 / 2 ^ 32, c1 := 1, c2 := 1 }
      0 (1 / 1000) = none := by
  decide!

/-- C16 (amended): for a cell size with strictly positive components, bounds
with `min_box ≤ max_box` on every axis, and rounded quotients below `2^32`,
`world (cell_size, bi, dt)` has no sphere and no brick, clock 0, time-step
`dt`, law `bi`, and on every axis the cell count `⌊quotient + 1/2⌋`, the
integer nearest to the quotient, an exact half rounded up. -/
theorem C16_cell_counts (E : collaborators Q B I G) (min_box max_box cell_size : vec3d)
    (bi : I) (dt : ℚ)
    (hpos : ∀ i, i < 3 → 0 < cell_size.get i)
    (hext : ∀ i, i < 3 → min_box.get i ≤ max_box.get i)
    (hfit : ∀ i, i < 3 →
      ⌊(max_box.get i - min_box.get i) / cell_size.get i + 1 / 2⌋ < 2 ^ 32) :
    ∃ w, world_ctor_cell_size E min_box max_box cell_size bi dt = some w ∧
      w.spheres = [] ∧ w.bricks = [] ∧ w.t = 0 ∧ w.dt = dt ∧ w.bi = bi ∧
      w.g = E.grid w.c min_box max_box ∧
      ∀ i, i < 3 →
        ((w.c.get i : ℤ) = ⌊(max_box.get i - min_box.get i) / cell_size.get i + 1 / 2⌋ ∧
         (w.c.get i : ℚ) - 1 / 2 ≤ (max_box.get i - min_box.get i) / cell_size.get i ∧
         (max_box.get i - min_box.get i) / cell_size.get i < (w.c.get i : ℚ) + 1 / 2) := by
  have hw := world_ctor_cell_size_of_rounded E min_box max_box cell_size bi dt
    (fun i => Int.toNat ⌊(max_box.get i - min_box.get i) / cell_size.get i + 1 / 2⌋)
    (fun i hi => rounded_cells_of_fits min_box max_box cell_size i (hpos i hi) (hext i hi)
      (hfit i hi))
  refine ⟨_, hw, rfl, rfl, rfl, rfl, rfl, rfl, ?_⟩
  intro i hi
  have hq : 0 ≤ (max_box.get i - min_box.get i) / cell_size.get i + 1 / 2 := by
    have : 0 ≤ (max_box.get i - min_box.get i) / cell_size.get i :=
      div_nonneg (by linarith [hext i hi]) (le_of_lt (hpos i hi))
    linarith
  have hf : 0 ≤ ⌊(max_box.get i - min_box.get i) / cell_size.get i + 1 / 2⌋ :=
    Int.floor_nonneg.mpr hq
  have hc : (((Int.toNat ⌊(max_box.get i - min_box.get i) / cell_size.get i + 1 / 2⌋ : ℕ) : ℤ))
      = ⌊(max_box.get i - min_box.get i) / cell_size.get i + 1 / 2⌋ := Int.toNat_of_nonneg hf
  have hcq : (((Int.toNat ⌊(max_box.get i - min_box.get i) / cell_size.get i + 1 / 2⌋ : ℕ) : ℚ))
      = ((⌊(max_box.get i - min_box.get i) / cell_size.get i + 1 / 2⌋ : ℤ) : ℚ) := by
    exact (Int.cast_natCast _).symm.trans (congrArg Int.cast hc)
  simp only []
  rw [cell_counts_get_mk
    (fun i => Int.toNat ⌊(max_box.get i - min_box.get i) / cell_size.get i + 1 / 2⌋) i hi]
  refine ⟨hc, ?_, ?_⟩
  · rw [hcq]
    have := Int.floor_le ((max_box.get i - min_box.get i) / cell_size.get i + 1 / 2)
    linarith
  · rw [hcq]
    have := Int.lt_floor_add_one ((max_box.get i - min_box.get i) / cell_size.get i + 1 / 2)
    linarith

/-- C16 (amended) at the unit domain with cell sizes `1/10`, `2/3` and `2/5`:
the quotients `10`, `3/2` and `5/2` give the cell counts `10`, `2` and `3`. -/
theorem C16_cell_counts_witness :
    world_ctor_cell_size one_cell unit_lo unit_hi
        { c0 := 1 / 10, c1 := 2 / 3, c2 := 2 / 5 } 0 (1 / 100) =
      some { empty_world with c := { c0 := 10, c1 := 2, c2 := 3 }, dt := 1 / 100 } ∧
    ∃ w, world_ctor_cell_size one_cell unit_lo unit_hi
        { c0 := 1 / 10, c1 := 2 / 3, c2 := 2 / 5 } 0 (1 / 100) = some w ∧
      w.spheres = [] ∧ w.bricks = [] ∧ w.t = 0 ∧ w.dt = 1 / 100 ∧ w.bi = 0 ∧
      w.g = one_cell.grid w.c unit_lo unit_hi ∧
      ∀ i, i < 3 →
        ((w.c.get i : ℤ) = ⌊(unit_hi.get i - unit_lo.get i) /
            (vec3d.get { c0 := 1 / 10, c1 := 2 / 3, c2 := 2 / 5 } i) + 1 / 2⌋ ∧
         (w.c.get i : ℚ) - 1 / 2 ≤ (unit_hi.get i - unit_lo.get i) /
            (vec3d.get { c0 := 1 / 10, c1 := 2 / 3, c2 := 2 / 5 } i) ∧
         (unit_hi.get i - unit_lo.get i) /
            (vec3d.get { c0 := 1 / 10, c1 := 2 / 3, c2 := 2 / 5 } i) < (w.c.get i : ℚ) + 1 / 2) :=
  ⟨by decide!,
   C16_cell_counts one_cell unit_lo unit_hi { c0 := 1 / 10, c1 := 2 / 3, c2 := 2 / 5 } 0
     (1 / 100) (by decide!) (by decide!) (by decide!)⟩

/-- C17: `update_flags` writes nothing but the flags of the spheres, sphere by
sphere in place; afterwards a sphere is flagged kill exactly when it was
flagged kill before or some coordinate lies below `min_box` or above `max_box`
on its axis; a sphere inside the closed box, bounds included, is left as it
is, and a kill flag stays. -/
theorem C17_update_flags (w : world Q B I G) :
    (update_flags w).spheres.length = w.spheres.length ∧
    { update_flags w with spheres := w.spheres } = w ∧
    (update_flags w).spheres = w.spheres.map (flag_sphere w.min_box w.max_box) ∧
    (∀ s : sphere Q,
      flag_sphere w.min_box w.max_box s =
        { s with flag := (flag_sphere w.min_box w.max_box s).flag } ∧
      ((flag_sphere w.min_box w.max_box s).flag = sphere.state.kill ↔
        s.flag = sphere.state.kill ∨
          ∃ k, k < w.min_box.size ∧
            (s.x.get k < w.min_box.get k ∨ s.x.get k > w.max_box.get k)) ∧
      (in_box w.min_box w.max_box s → flag_sphere w.min_box w.max_box s = s) ∧
      (s.flag = sphere.state.kill →
        (flag_sphere w.min_box w.max_box s).flag = sphere.state.kill)) := by
  refine ⟨by simp [update_flags], rfl, rfl, ?_⟩
  intro s
  have he := flag_sphere_eq w.min_box w.max_box s
  by_cases hb : in_box w.min_box w.max_box s
  · have hne := (not_in_box_iff w.min_box w.max_box s).not.mp (not_not.mpr hb)
    rw [if_pos hb] at he
    rw [he]
    exact ⟨rfl, ⟨fun h => Or.inl h, fun h => h.elim id (fun h2 => absurd h2 hne)⟩,
      fun _ => rfl, id⟩
  · have hex := (not_in_box_iff w.min_box w.max_box s).mp hb
    rw [if_neg hb] at he
    rw [he]
    exact ⟨rfl, ⟨fun _ => Or.inr hex, fun _ => rfl⟩, fun h => absurd h hb, fun _ => rfl⟩

/-- C13 as stated fails: after one step of the drifting sphere the record grid
holds for index 0 the position `1/2` of before the integration, while the
sphere is at `501/1000`. -/
theorem C13_counterexample :
    (step (record_grid one_cell true) drift_record_world).map
        (fun w => (recorded w.g 0, w.spheres.map (fun s => s.x))) =
      some (some { c0 := 1 / 2, c1 := 1 / 2, c2 := 1 / 2 },
        [{ c0 := 501 / 1000, c1 := 1 / 2, c2 := 1 / 2 }]) := by
  decide!

/-- C13 (amended): with the record grid (its `update` registering a missing
index) and a law that does not write positions, after a completed step the
position recorded for the index `i` of a remaining sphere is the position `a.x`
that the sphere had after the cleanup pass of the step, when the grid was
updated; the position of the sphere at the end of the step is that recorded
position plus `v * dt`. -/
theorem C13_grid_records_update_time (E : collaborators Q B I G)
    (hx1 : kept_by_interact E (fun s : sphere Q => s.x))
    (hx2 : kept_by_interact_brick E (fun s : sphere Q => s.x))
    (w w1 : world Q B I (List (ℕ × vec3d)))
    (hrun : step (record_grid E true) w = some w1) (i : ℕ) (hi : i < num_spheres w1) :
    ∃ a b, (w.spheres.filter (survives w.min_box w.max_box))[i]? = some a ∧
      w1.spheres[i]? = some b ∧
      recorded w1.g i = some a.x ∧
      b.x = a.x + b.v * w.dt := by
  have hlen := step_length (record_grid E true) w w1 hrun
  rw [cleanup_spheres] at hlen
  have hg := step_grid (record_grid E true) w w1 hrun
  rw [cleanup_spheres] at hg
  obtain ⟨l2, hl2, hkept⟩ := step_spheres (record_grid E true) w w1 hrun
  have hxs := hkept vec3d (fun s => s.x) hx1 hx2
  have hi1 : i < w1.spheres.length := hi
  have hi2 : i < (w.spheres.filter (survives w.min_box w.max_box)).length := by
    rw [← hlen]; exact hi1
  have hi3 : i < l2.length := by
    have := congrArg List.length hl2
    simp only [List.length_map] at this
    omega
  refine ⟨(w.spheres.filter (survives w.min_box w.max_box))[i], w1.spheres[i],
    List.getElem?_eq_getElem hi2, List.getElem?_eq_getElem hi1, ?_, ?_⟩
  · rw [hg, recorded_update_from]
    have hc : 0 ≤ i ∧ i < 0 + (w.spheres.filter (survives w.min_box w.max_box)).length := by
      omega
    rw [if_pos hc, Nat.sub_zero, List.getElem?_eq_getElem hi2]
    rfl
  · have hb : w1.spheres[i] = integrate (record_grid E true) w.dt l2[i] := by
      simp [hl2]
    have hax : l2[i].x = (w.spheres.filter (survives w.min_box w.max_box))[i].x := by
      have h1 : (l2.map fun s => s.x)[i]? =
          ((w.spheres.filter (survives w.min_box w.max_box)).map fun s => s.x)[i]? := by
        rw [hxs]
      simpa [List.getElem?_map, List.getElem?_eq_getElem hi3,
        List.getElem?_eq_getElem hi2] using h1
    rw [hb, ← hax]
    rfl

/-- C13 (amended) at the drifting sphere: the grid records `1/2`, and the
sphere ends the step at `1/2 + 1 * 0.001`. -/
theorem C13_grid_records_update_time_witness :
    step (record_grid one_cell true) drift_record_world = some drift_record_stepped ∧
    ∃ a b : sphere vec3d,
      (drift_record_world.spheres.filter
        (survives drift_record_world.min_box drift_record_world.max_box))[0]? = some a ∧
      drift_record_stepped.spheres[0]? = some b ∧
      recorded drift_record_stepped.g 0 = some a.x ∧
      b.x = a.x + b.v * drift_record_world.dt :=
  ⟨by decide!,
   C13_grid_records_update_time one_cell (fun _ _ _ => ⟨rfl, rfl⟩) (fun _ _ _ => rfl)
     drift_record_world drift_record_stepped (by decide!) 0 (by decide!)⟩

/-- C14: a sphere that stands at index `i` at the start of a step and is
flagged kill or lies outside the box is flagged kill by `update_flags`; the
cleanup pass calls `g.remove` for it with the index `i` and erases index `i`
right after that call; it is not in the collection that the later phases act
on, whose members are all alive and inside the box; the step is the step of
the world without the escapees, and the grid at its end is the grid after the
removals, updated for the kept spheres at their new indices only. -/
theorem C14_escapee_leaves (E : collaborators Q B I G) (w : world Q B I G) (i : ℕ)
    (s : sphere Q) (hi : w.spheres[i]? = some s)
    (hout : s.flag = sphere.state.kill ∨ ¬ in_box w.min_box w.max_box s) :
    flag_sphere w.min_box w.max_box s = { s with flag := sphere.state.kill } ∧
    [clean_event.grid_remove { s with flag := sphere.state.kill } i, clean_event.erase i]
      <:+: clean_log E (update_flags w) ∧
    (∀ a ∈ (cleanup E w).spheres,
      survives w.min_box w.max_box a = true ∧ a ≠ s ∧
        a ≠ { s with flag := sphere.state.kill }) ∧
    step E w = step E (cleanup E w) ∧
    (∀ w1, step E w = some w1 →
      w1.g = update_from E 0 (w.spheres.filter (survives w.min_box w.max_box))
        (cleanup E w).g ∧
      ∃ l2 : List (sphere Q), w1.spheres = l2.map (integrate E w.dt) ∧
        l2.length = (w.spheres.filter (survives w.min_box w.max_box)).length) := by
  have hflag : flag_sphere w.min_box w.max_box s = { s with flag := sphere.state.kill } := by
    rw [flag_sphere_eq]
    by_cases hb : in_box w.min_box w.max_box s
    · rw [if_pos hb]
      rcases hout with h | h
      · rw [← h]
      · exact absurd hb h
    · rw [if_neg hb]
  have hns : survives w.min_box w.max_box s = false := by
    rcases hout with h | h
    · simp [survives, h]
    · simp [survives, h]
  have hns2 : survives w.min_box w.max_box { s with flag := sphere.state.kill } = false := by
    simp [survives]
  refine ⟨hflag, ?_, ?_, (step_cleanup E w).symm, ?_⟩
  · rw [(clean_log_eq E (update_flags w)).2]
    apply flatMap_infix_of_mem
      (fun p : ℕ × sphere Q => [clean_event.grid_remove p.2 p.1, clean_event.erase p.1])
      _ (i, { s with flag := sphere.state.kill })
    rw [mem_kill_list]
    have hlt : i < w.spheres.length := by
      by_contra hge
      rw [List.getElem?_eq_none (Nat.le_of_not_lt hge)] at hi
      simp at hi
    refine ⟨by simpa [update_flags] using hlt, ?_, rfl⟩
    simp [update_flags, List.getElem?_map, hi, hflag]
  · intro a ha
    rw [cleanup_spheres] at ha
    have hsa := (List.mem_filter.mp ha).2
    refine ⟨hsa, ?_, ?_⟩
    · intro h; rw [h, hns] at hsa; simp at hsa
    · intro h; rw [h, hns2] at hsa; simp at hsa
  · intro w1 hrun
    refine ⟨by rw [step_grid E w w1 hrun, cleanup_spheres], ?_⟩
    obtain ⟨l2, h1, h2⟩ := step_spheres E w w1 hrun
    refine ⟨l2, h1, ?_⟩
    have := congrArg List.length (h2 Unit (fun _ => ()) (fun _ _ _ => ⟨rfl, rfl⟩)
      (fun _ _ _ => rfl))
    simpa using this

/-- C14 at `stray_world`, whose third sphere lies outside the unit domain: the
cleanup pass removes it from the grid with index 2 and erases it, and the step
ends with the two other spheres. -/
theorem C14_escapee_leaves_witness :
    clean_log one_cell (update_flags stray_world) =
      [clean_event.grid_remove
        { ball { c0 := 2, c1 := 1 / 2, c2 := 1 / 2 } vec3d.zero with
          x0 := { c0 := 2, c1 := 1 / 2, c2 := 1 / 2 }, flag := sphere.state.kill } 2,
       clean_event.erase 2] ∧
    step one_cell stray_world = step one_cell (cleanup one_cell stray_world) ∧
    step one_cell stray_world = some { rest_pair with t := 1 / 1000, bi := 1 } :=
  ⟨by decide!,
   (C14_escapee_leaves one_cell stray_world 2
      { ball { c0 := 2, c1 := 1 / 2, c2 := 1 / 2 } vec3d.zero with
        x0 := { c0 := 2, c1 := 1 / 2, c2 := 1 / 2 } }
      (by decide!) (by decide!)).2.2.2.1,
   by decide!⟩

/-- C18: `clean` is defined on every world and leaves the empty world as it
is; the collection afterwards is the order-preserving filter of the previous
one by `flag ≠ kill`, no sphere in it is flagged kill, and nothing but the
collection and the grid changes; the grid receives one `remove` per erased
sphere, each followed at once by the erasure of that index, in strictly
descending index order, each call carrying the sphere and the index it had in
the collection before `clean` started. -/
theorem C18_clean (E : collaborators Q B I G) (w : world Q B I G) :
    (w.spheres = [] → clean E w = w) ∧
    (clean E w).spheres = w.spheres.filter (fun s => decide (s.flag ≠ sphere.state.kill)) ∧
    (∀ s ∈ (clean E w).spheres, s.flag ≠ sphere.state.kill) ∧
    { clean E w with g := w.g, spheres := w.spheres } = w ∧
    (clean E w).g =
      (kill_list w.spheres.length w.spheres).foldl (fun g p => E.remove g p.2 p.1) w.g ∧
    clean_log E w =
      (kill_list w.spheres.length w.spheres).flatMap
        (fun p => [clean_event.grid_remove p.2 p.1, clean_event.erase p.1]) ∧
    List.Pairwise (fun a b => a > b)
      ((kill_list w.spheres.length w.spheres).map fun p => p.1) ∧
    (∀ i s, (i, s) ∈ kill_list w.spheres.length w.spheres ↔
      w.spheres[i]? = some s ∧ s.flag = sphere.state.kill) ∧
    (kill_list w.spheres.length w.spheres).length + num_spheres (clean E w) =
      num_spheres w := by
  refine ⟨?_, clean_spheres E w, ?_, ?_, (clean_log_eq E w).1, (clean_log_eq E w).2,
    kill_list_descending _ _, ?_, ?_⟩
  · intro he
    unfold clean
    simp [he]
  · intro s hs
    rw [clean_spheres] at hs
    simpa using (List.mem_filter.mp hs).2
  · unfold clean
    split <;> rfl
  · intro i s
    rw [mem_kill_list]
    constructor
    · rintro ⟨-, h, hf⟩
      exact ⟨h, hf⟩
    · rintro ⟨h, hf⟩
      refine ⟨?_, h, hf⟩
      by_contra hge
      rw [List.getElem?_eq_none (Nat.le_of_not_lt hge)] at h
      simp at h
  · have := kill_list_length w.spheres.length w.spheres le_rfl
    rw [List.take_length] at this
    unfold num_spheres
    rw [clean_spheres]
    exact this

/-- C19: in a step, the block "Interact with fixed objects" runs on the law
object and the collection that the sphere-sphere interactions leave behind, and
its calls of the brick-sphere law are the entries of `brick_pairs`, one call
per entry in that order: every pair of a brick and a sphere kept by the cleanup
pass exactly once, `num_bricks * num_spheres` calls in all, none without a
brick, whatever the grid answers. -/
theorem C19_brick_calls (E : collaborators Q B I G) (w : world Q B I G) :
    step E w =
      (interact_along E
        (interaction_pairs E (update_grid_positions E (cleanup E w)).g
          (num_spheres (cleanup E w)))
        ((cleanup E w).bi, (cleanup E w).spheres)).map
        (fun st => update_state_variable (position_updating E
          { update_grid_positions E (cleanup E w) with
            bi := ((brick_pairs (num_bricks w) (num_spheres (cleanup E w))).foldl
              (interact_brick_at E) (st.1, w.bricks, st.2)).1,
            bricks := ((brick_pairs (num_bricks w) (num_spheres (cleanup E w))).foldl
              (interact_brick_at E) (st.1, w.bricks, st.2)).2.1,
            spheres := ((brick_pairs (num_bricks w) (num_spheres (cleanup E w))).foldl
              (interact_brick_at E) (st.1, w.bricks, st.2)).2.2 })) ∧
    (∀ b s, b < num_bricks w → s < num_spheres (cleanup E w) →
      calls_on (brick_pairs (num_bricks w) (num_spheres (cleanup E w))) b s = 1) ∧
    (∀ b s, ¬ (b < num_bricks w ∧ s < num_spheres (cleanup E w)) →
      calls_on (brick_pairs (num_bricks w) (num_spheres (cleanup E w))) b s = 0) ∧
    (brick_pairs (num_bricks w) (num_spheres (cleanup E w))).length =
      num_bricks w * num_spheres (cleanup E w) ∧
    (num_bricks w = 0 → brick_pairs (num_bricks w) (num_spheres (cleanup E w)) = []) := by
  refine ⟨?_, ?_, ?_, brick_pairs_length _ _, ?_⟩
  · rw [step_eq_interact_along E w]
    cases h : interact_along E
        (interaction_pairs E (update_grid_positions E (cleanup E w)).g
          (num_spheres (cleanup E w)))
        ((cleanup E w).bi, (cleanup E w).spheres) with
    | none => rfl
    | some st =>
      have hlen : st.2.length = num_spheres (cleanup E w) :=
        foldlM_pairs_length E _ _ _ h
      have hbr : (cleanup E w).bricks = w.bricks := (cleanup_fields E w).1
      simp only [Option.map_some', interact_with_fixed_objects_eq, update_grid_positions,
        hlen, hbr, num_bricks]
  · intro b s hb hs
    rw [calls_on_brick_pairs, if_pos ⟨hb, hs⟩]
  · intro b s hbs
    rw [calls_on_brick_pairs, if_neg hbs]
  · intro h0
    rw [h0]
    rfl

/-- C20: under a law that writes no sphere, a completed step ends with the
spheres kept by the cleanup pass, in their order, each with position
`x + v * dt` (componentwise) and orientation `q + w * dt` (the sum applied
once, nothing else done to `q`), and with velocity, angular velocity, reference
position and flag as before; the clock ends at `t + dt`; a step of a world
without spheres completes and advances the clock as well. -/
theorem C20_inert_law_step (E : collaborators Q B I G)
    (h1 : kept_by_interact E (fun s : sphere Q => s))
    (h2 : kept_by_interact_brick E (fun s : sphere Q => s)) (w : world Q B I G) :
    (∀ w1, step E w = some w1 →
      w1.spheres =
        (w.spheres.filter (survives w.min_box w.max_box)).map (integrate E w.dt) ∧
      w1.t = w.t + w.dt) ∧
    (∀ (dt : ℚ) (s : sphere Q),
      (integrate E dt s).x = s.x + s.v * dt ∧
      (integrate E dt s).x.c0 = s.x.c0 + s.v.c0 * dt ∧
      (integrate E dt s).x.c1 = s.x.c1 + s.v.c1 * dt ∧
      (integrate E dt s).x.c2 = s.x.c2 + s.v.c2 * dt ∧
      (integrate E dt s).q = E.q_plus s.q (s.w * dt) ∧
      (integrate E dt s).v = s.v ∧ (integrate E dt s).w = s.w ∧
      (integrate E dt s).x0 = s.x0 ∧ (integrate E dt s).flag = s.flag) ∧
    (w.spheres = [] →
      ∃ w1, step E w = some w1 ∧ w1.spheres = [] ∧ w1.t = w.t + w.dt) := by
  have hmain : ∀ w1, step E w = some w1 →
      w1.spheres =
        (w.spheres.filter (survives w.min_box w.max_box)).map (integrate E w.dt) ∧
      w1.t = w.t + w.dt := by
    intro w1 hrun
    obtain ⟨l2, hl2, hkept⟩ := step_spheres E w w1 hrun
    have hid := hkept (sphere Q) (fun s => s) h1 h2
    simp only [List.map_id_fun', id_eq] at hid
    rw [hl2, hid]
    exact ⟨rfl, (step_fields E w w1 hrun).1⟩
  refine ⟨hmain, fun dt s => ⟨rfl, rfl, rfl, rfl, rfl, rfl, rfl, rfl, rfl⟩, ?_⟩
  intro he
  obtain ⟨w1, hw1⟩ := step_isSome E w (by
    intro i j hi
    rw [cleanup_spheres, he] at hi
    simp at hi)
  obtain ⟨hs, ht⟩ := hmain w1 hw1
  refine ⟨w1, hw1, ?_, ht⟩
  rw [hs, he]
  rfl

/-- C20 at the drifting sphere: one step moves it from `1/2` to `501/1000`
along the first axis and the clock from 0 to `1/1000`. -/
theorem C20_inert_law_step_witness :
    step one_cell drift_world =
      some { drift_world with
        spheres := [{ ball { c0 := 501 / 1000, c1 := 1 / 2, c2 := 1 / 2 }
                        { c0 := 1, c1 := 0, c2 := 0 } with
                      x0 := { c0 := 1 / 2, c1 := 1 / 2, c2 := 1 / 2 } }],
        t := 1 / 1000 } ∧
    ({ drift_world with
        spheres := [{ ball { c0 := 501 / 1000, c1 := 1 / 2, c2 := 1 / 2 }
                        { c0 := 1, c1 := 0, c2 := 0 } with
                      x0 := { c0 := 1 / 2, c1 := 1 / 2, c2 := 1 / 2 } }],
        t := 1 / 1000 } : world vec3d ℕ ℕ (List ℕ)).spheres =
      (drift_world.spheres.filter (survives drift_world.min_box drift_world.max_box)).map
        (integrate one_cell drift_world.dt) ∧
    ({ drift_world with
        spheres := [{ ball { c0 := 501 / 1000, c1 := 1 / 2, c2 := 1 / 2 }
                        { c0 := 1, c1 := 0, c2 := 0 } with
                      x0 := { c0 := 1 / 2, c1 := 1 / 2, c2 := 1 / 2 } }],
        t := 1 / 1000 } : world vec3d ℕ ℕ (List ℕ)).t = drift_world.t + drift_world.dt :=
  ⟨by decide!,
   ((C20_inert_law_step one_cell (fun _ _ _ => ⟨rfl, rfl⟩) (fun _ _ _ => rfl)
      drift_world).1 _ (by decide!)).1,
   ((C20_inert_law_step one_cell (fun _ _ _ => ⟨rfl, rfl⟩) (fun _ _ _ => rfl)
      drift_world).1 _ (by decide!)).2⟩

end panda
